import Mathlib

/-!
# Payroll contract intake: upload gateway, contract model, client validation, workflow tracker

A shallow embedding of the parts of the repository that the claims are about:

* `backend/controllers/payrollController.js` (`uploadContract`),
  `backend/api/routes.js` and `backend/server.js` (the upload route and its multer instance),
* `backend/models/contractModel.js` and `backend/services/mongodbService.js`,
* `frontend/src/schemas/contractValidation.js`,
* `frontend/src/components/contract/ContractStatus.jsx`,
* `frontend/src/store/slices/contractSlice.js` and `frontend/src/services/api.js`,
* `frontend/src/components/contract/ContractUpload.jsx`,
* `frontend/src/store/slices/payrollSlice.js` and
  `frontend/src/components/dashboard/PayrollDashboard.jsx`.

Effectful JavaScript is embedded as a function that returns the list of effects it performs,
in order. What the runtime or the outside world decides (the outcome of the parser subprocess,
`JSON.parse`, the outcome of the store write, the clock, how an HTTP request settles) is a
parameter. Reducers are functions from a state and a payload to the next state.
Monetary amounts and sizes are integers.
-/

namespace Payroll

/-! ## Data model -/

/-- JSON values, the bodies that `res.json` sends and that `JSON.parse` returns. -/
inductive Json where
  | null
  | bool (b : Bool)
  | num (n : Int)
  | str (s : String)
  | arr (xs : List Json)
  | obj (kvs : List (String × Json))

/-- The object literal written in the source as an object with the single key error. -/
def errorBody (msg : String) : Json :=
  Json.obj [("error", Json.str msg)]

/-- A file part of a multipart request, and the file object multer attaches to the request for
it (the fields the code or the spec refer to). A part that carries no file has an empty
`originalname`. -/
structure UploadedFile where
  fieldname : String
  originalname : String
  mimetype : String
  size : Nat
  path : String
deriving DecidableEq, Repr

/-- The request as seen by the controller: only `req.file` is read. -/
structure Request where
  file : Option UploadedFile
deriving DecidableEq, Repr

/-- What `exec` hands to its callback: `error` (null or an error), `stdout`, `stderr`. -/
structure ExecResult where
  error : Option String
  stdout : String
  stderr : String
deriving DecidableEq, Repr

/-- What the controller takes from its surroundings: the resolved path of the parser script,
the outcome of running a command with `child_process.exec` (`none` when the subprocess never
exits, so that the callback is never called: `exec` is given no timeout), and `JSON.parse`
(`none` when it throws). -/
structure Env where
  pythonScriptPath : String
  exec : String → Option ExecResult
  jsonParse : String → Option Json

/-! ### Contract model (`contractModel.js`) -/

/-- The salary part of the data given to `new Contract(...)`: every key may be missing. -/
structure SalaryComponentInput where
  basic_salary : Option Int
  hra : Option Int
  lta : Option Int
  variable_pay : Option Int
  bonuses : Option Int
  other_allowances : Option Int
deriving DecidableEq, Repr

/-- The data given to `new Contract(...)`: every key may be missing. -/
structure ContractData where
  employee_id : Option String
  employee_name : Option String
  designation : Option String
  department : Option String
  join_date : Option Nat
  salary_components : Option SalaryComponentInput
  statutory_obligations : Option (List String)
  region : Option String
  currency : Option String
  uploaded_at : Option Nat
deriving DecidableEq, Repr

/-- A salary sub-document of a contract record. -/
structure SalaryComponent where
  basic_salary : Int
  hra : Int
  lta : Int
  variable_pay : Int
  bonuses : Int
  other_allowances : Int
deriving DecidableEq, Repr

/-- A contract record (a document of the model `Contract`). The salary sub-document is a
single nested sub-document, which a document has only when the input supplies one. -/
structure Contract where
  employee_id : Option String
  employee_name : Option String
  designation : Option String
  department : Option String
  join_date : Option Nat
  salary_components : Option SalaryComponent
  statutory_obligations : List String
  region : Option String
  currency : Option String
  uploaded_at : Nat
deriving DecidableEq, Repr

/-- `SalaryComponentSchema`: six paths of type Number, each with `default: 0` and no validator.
Applied to a supplied object, a missing key takes its default. -/
def SalaryComponentSchema (i : SalaryComponentInput) : SalaryComponent where
  basic_salary := i.basic_salary.getD 0
  hra := i.hra.getD 0
  lta := i.lta.getD 0
  variable_pay := i.variable_pay.getD 0
  bonuses := i.bonuses.getD 0
  other_allowances := i.other_allowances.getD 0

/-- `ContractSchema`, as `new Contract(contractData)` applies it at time `now`:
plain paths are copied, `salary_components` is a sub-document path (declared with a schema and
without a default, so it stays undefined when the input has none), the array path defaults to the
empty array and `uploaded_at` defaults to `Date.now`. -/
def ContractSchema (now : Nat) (d : ContractData) : Contract where
  employee_id := d.employee_id
  employee_name := d.employee_name
  designation := d.designation
  department := d.department
  join_date := d.join_date
  salary_components := d.salary_components.map SalaryComponentSchema
  statutory_obligations := d.statutory_obligations.getD []
  region := d.region
  currency := d.currency
  uploaded_at := d.uploaded_at.getD now

/-! ### Effects -/

/-- The observable effects of the backend code, in the order they happen. -/
inductive Effect where
  | exec (cmd : String)
  | consoleError (msg : String)
  | consoleLog (msg : String)
  | respond (status : Nat) (body : Json)
  | save (doc : Contract)
  | nextError (code : String)

/-- The commands handed to `exec`, in order. -/
def execCalls : List Effect → List String
  | [] => []
  | Effect.exec cmd :: t => cmd :: execCalls t
  | _ :: t => execCalls t

/-- The responses sent (status and body), in order. -/
def responses : List Effect → List (Nat × Json)
  | [] => []
  | Effect.respond status body :: t => (status, body) :: responses t
  | _ :: t => responses t

/-- The contract records written to the store, in order. -/
def saves : List Effect → List Contract
  | [] => []
  | Effect.save doc :: t => doc :: saves t
  | _ :: t => saves t

/-! ## Backend -/

/-- The command line `uploadContract` builds for the parser script. -/
def parserCommand (pythonScriptPath filePath : String) : String :=
  "python " ++ pythonScriptPath ++ " \"" ++ filePath ++ "\""

/-- `uploadContract` of `payrollController.js`. The callback of `exec` runs when the command
has exited, with its outcome; while the command does not exit nothing more happens. A response
without an explicit status has status 200. -/
def uploadContract (env : Env) (req : Request) : List Effect :=
  match req.file with
  | none => [Effect.respond 400 (errorBody "No file uploaded")]
  | some file =>
    let filePath := file.path
    let cmd := parserCommand env.pythonScriptPath filePath
    Effect.exec cmd ::
      (match env.exec cmd with
       | none => []
       | some r =>
         match r.error with
         | some _ =>
           [Effect.consoleError ("❌ Python execution failed: " ++ r.stderr),
            Effect.respond 500 (errorBody "Failed to parse contract")]
         | none =>
           match env.jsonParse r.stdout with
           | some parsedData => [Effect.respond 200 parsedData]
           | none =>
             [Effect.consoleError "❌ Failed to parse Python output:",
              Effect.respond 500 (errorBody "Invalid response from parser")])

/-- `createEmployeeFromContract` of `mongodbService.js`, at time `now`, against a store whose
write either succeeds or fails with a message. The result is the returned record or the message
of the thrown error. -/
def createEmployeeFromContract (now : Nat) (dbSave : Contract → Except String Unit)
    (contractData : ContractData) : List Effect × Except String Contract :=
  let newContract := ContractSchema now contractData
  match dbSave newContract with
  | Except.ok _ =>
    ([Effect.save newContract, Effect.consoleLog "✅ Contract saved to MongoDB"],
      Except.ok newContract)
  | Except.error message =>
    ([], Except.error ("❌ Failed to save contract to MongoDB: " ++ message))

/-- The options a multer instance is built from: the destination folder, an optional file
filter and an optional file size limit. -/
structure MulterOptions where
  dest : String
  fileFilter : Option (UploadedFile → Bool)
  fileSize : Option Nat

/-- A library model of how a multer instance takes the file parts of a multipart request, in
order, for `single(fieldname)`: `filesLeft` is the number of files the field may still take and
`file` the file attached so far. A part without a file name is passed over and counts for
nothing; a named part under another field, or one more than the field may take, is an error
handed to the error handler; a part the file filter refuses is dropped; a file over the size
limit is an error; any other part becomes `req.file`. -/
def MulterOptions.accept (o : MulterOptions) (fieldname : String) :
    Nat → Option UploadedFile → List UploadedFile → Except String (Option UploadedFile)
  | _, file, [] => Except.ok file
  | filesLeft, file, f :: rest =>
    if f.originalname = "" then o.accept fieldname filesLeft file rest
    else if f.fieldname ≠ fieldname ∨ filesLeft = 0 then Except.error "LIMIT_UNEXPECTED_FILE"
    else if (o.fileFilter.map (fun keep => keep f)).getD true = false then
      o.accept fieldname (filesLeft - 1) file rest
    else if (o.fileSize.map (fun limit => decide (limit < f.size))).getD false = true then
      Except.error "LIMIT_FILE_SIZE"
    else o.accept fieldname (filesLeft - 1) (some f) rest

/-- A library model of `single(fieldname)` of a multer instance, applied to the file parts of a
multipart request (none when the request is not multipart): the field takes one file. -/
def MulterOptions.single (o : MulterOptions) (fieldname : String)
    (parts : List UploadedFile) : Except String (Option UploadedFile) :=
  o.accept fieldname 1 none parts

/-- The multer instance of `server.js`: only `dest` is given. -/
def upload : MulterOptions where
  dest := "uploads/"
  fileFilter := none
  fileSize := none

/-- The route `POST /upload` of `routes.js`: `upload.single("contract")`, then the controller. -/
def postUpload (env : Env) (parts : List UploadedFile) : List Effect :=
  match upload.single "contract" parts with
  | Except.error code => [Effect.nextError code]
  | Except.ok file => uploadContract env { file := file }

/-! ## Client-side validation (`contractValidation.js`) -/

/-- A browser file, as far as the schema reads it. -/
structure FileInfo where
  name : String
  type : String
  size : Nat
deriving DecidableEq, Repr

/-- The test `fileType` of `contractUploadSchema`. -/
def fileTypeTest (value : FileInfo) : Bool :=
  ["application/pdf",
   "application/vnd.openxmlformats-officedocument.wordprocessingml.document",
   "text/plain"].contains value.type

/-- The test `fileSize` of `contractUploadSchema`. -/
def fileSizeTest (value : FileInfo) : Bool :=
  decide (value.size ≤ 10 * 1024 * 1024)

/-- The messages of the tests that one element of `files` fails. -/
def fileErrors (value : FileInfo) : List String :=
  (if fileTypeTest value then [] else ["Only PDF, DOCX, and TXT files are allowed"]) ++
  (if fileSizeTest value then [] else ["File size must be less than 10MB"])

/-- `contractUploadSchema`, applied to the array under the key `files`: the messages of the
failed tests (none when the array is accepted). -/
def contractUploadSchema (files : List FileInfo) : List String :=
  (if files.length < 1 then ["At least one contract file is required"] else []) ++
  files.flatMap fileErrors

/-- The values `employeeContractSchema` is applied to: each declared key may be missing; keys
the schema does not declare are carried in `undeclared` and are not validated. -/
structure EmployeeContractInput where
  employeeId : Option String
  basicSalary : Option Int
  hra : Option Int
  lta : Option Int
  variablePay : Option Int
  pfApplicable : Option Bool
  gratuityApplicable : Option Bool
  undeclared : List (String × Int)
deriving DecidableEq, Repr

/-- The test `min(0, message)` of an optional number: a missing value passes. -/
def minZero (message : String) : Option Int → List String
  | some v => if 0 ≤ v then [] else [message]
  | none => []

/-- `employeeContractSchema`: the messages of the failed tests (none when accepted). -/
def employeeContractSchema (v : EmployeeContractInput) : List String :=
  (match v.employeeId with
   | some s => if s = "" then ["Employee ID is required"] else []
   | none => ["Employee ID is required"]) ++
  (match v.basicSalary with
   | some n => if 0 < n then [] else ["basicSalary must be a positive number"]
   | none => ["Basic salary is required"]) ++
  minZero "HRA cannot be negative" v.hra ++
  minZero "LTA cannot be negative" v.lta ++
  minZero "Variable pay cannot be negative" v.variablePay

/-! ## Workflow progress tracker (`ContractStatus.jsx`) -/

/-- The fixed order of the five stages. -/
def AGENT_ORDER : List String :=
  ["ContractReaderAgent",
   "SalaryCalculatorAgent",
   "ComplianceMapperAgent",
   "AnomalyDetectorAgent",
   "DocumentGeneratorAgent"]

/-- One entry of `agent_progress`. -/
structure AgentProgress where
  status : Option String
  message : Option String
deriving DecidableEq, Repr

/-- The workflow state held in the store; `agent_progress` is an object keyed by stage name. -/
structure WorkflowState where
  workflow_status : Option String
  agent_progress : Option (List (String × AgentProgress))
  error_message : Option String
deriving DecidableEq, Repr

/-- What the tracker selects from the store and its effect depends on. -/
structure TrackerProps where
  activeRequestId : Option String
  workflowState : Option WorkflowState
deriving DecidableEq, Repr

/-- JavaScript truthiness of a value that is undefined or a string. -/
def truthy : Option String → Bool
  | some s => s ≠ ""
  | none => false

/-- The expression `workflowState?.workflow_status`. -/
def workflowStatus (workflowState : Option WorkflowState) : Option String :=
  workflowState.bind (fun w => w.workflow_status)

/-- A running interval timer: its id, its period in milliseconds, and the request id its
callback dispatches `fetchWorkflowStatus` with. -/
structure Interval where
  id : Nat
  delay : Nat
  requestId : String
deriving DecidableEq, Repr

/-- The timers of the page: the next id to hand out and the running intervals. -/
structure Timers where
  nextId : Nat
  active : List Interval
deriving DecidableEq, Repr

/-- No timer is running; ids are positive. -/
def Timers.init : Timers where
  nextId := 1
  active := []

/-- `setInterval(callback, delay)`: returns the new id. -/
def setInterval (requestId : String) (delay : Nat) (t : Timers) : Nat × Timers :=
  (t.nextId, { nextId := t.nextId + 1, active := t.active ++ [⟨t.nextId, delay, requestId⟩] })

/-- `clearInterval(id)`. -/
def clearInterval (id : Nat) (t : Timers) : Timers :=
  { t with active := t.active.filter (fun i => i.id ≠ id) }

/-- The body of the effect of `WorkflowProgressTracker`: returns `intervalId` (undefined when
no interval was set) and the timers afterwards. -/
def effect (p : TrackerProps) (t : Timers) : Option Nat × Timers :=
  match p.activeRequestId with
  | some activeRequestId =>
    if truthy (some activeRequestId) ∧ workflowStatus p.workflowState ≠ some "COMPLETED" ∧
        workflowStatus p.workflowState ≠ some "FAILED" then
      let r := setInterval activeRequestId 2000 t
      (some r.1, r.2)
    else (none, t)
  | none => (none, t)

/-- The cleanup function the effect returns, closed over `intervalId`. -/
def cleanup (intervalId : Option Nat) (t : Timers) : Timers :=
  match intervalId with
  | some id => if id ≠ 0 then clearInterval id t else t
  | none => t

/-- A mounted tracker: the `intervalId` its last effect holds, and the timers of the page. -/
structure Mounted where
  intervalId : Option Nat
  timers : Timers
deriving DecidableEq, Repr

/-- Mounting the component with `p` runs the effect. -/
def mount (p : TrackerProps) : Mounted :=
  let r := effect p Timers.init
  { intervalId := r.1, timers := r.2 }

/-- A change of the dependencies to `p`: the cleanup of the last effect runs, then the effect. -/
def update (m : Mounted) (p : TrackerProps) : Mounted :=
  let r := effect p (cleanup m.intervalId m.timers)
  { intervalId := r.1, timers := r.2 }

/-- The tracker after being mounted with `p` and going through the changes `ps` in order. -/
def track (p : TrackerProps) (ps : List TrackerProps) : Mounted :=
  ps.foldl update (mount p)

/-- The expression `workflowState?.agent_progress || {}`. -/
def agentProgress (workflowState : Option WorkflowState) : List (String × AgentProgress) :=
  (workflowState.bind (fun w => w.agent_progress)).getD []

/-- The expression `workflowState?.workflow_status || 'PENDING'`. -/
def currentStatus (workflowState : Option WorkflowState) : String :=
  if truthy (workflowStatus workflowState) then (workflowStatus workflowState).getD "PENDING"
  else "PENDING"

/-- The expression `agentProgress[agentName]?.status`. -/
def stageStatus (workflowState : Option WorkflowState) (agentName : String) : Option String :=
  ((agentProgress workflowState).lookup agentName).bind (fun a => a.status)

/-- What `getStepIcon` can return besides null. -/
inductive Icon where
  | CircularProgress
deriving DecidableEq, Repr

/-- `getStepIcon`: the running indicator, or null. -/
def getStepIcon (workflowState : Option WorkflowState) (agentName : String) : Option Icon :=
  let status := stageStatus workflowState agentName
  if status = some "RUNNING" ∨ (currentStatus workflowState = "RUNNING" ∧ truthy status = false)
  then some Icon.CircularProgress
  else none

/-- `isStepCompleted`. -/
def isStepCompleted (workflowState : Option WorkflowState) (agentName : String) : Bool :=
  let status := stageStatus workflowState agentName
  decide (status = some "COMPLETED")

/-- An alert the tracker renders under the stepper. -/
structure Alert where
  severity : String
  text : String
deriving DecidableEq, Repr

/-- The expression `workflowState?.error_message || 'An unknown error occurred.'`. -/
def errorMessage (workflowState : Option WorkflowState) : String :=
  if truthy (workflowState.bind (fun w => w.error_message)) then
    (workflowState.bind (fun w => w.error_message)).getD "An unknown error occurred."
  else "An unknown error occurred."

/-- The two conditional alerts that end the render of the tracker, a part of the render that
is reached only with an active request id (see `WorkflowProgressTracker`): the success alert
when `currentStatus` is COMPLETED, the error alert when it is FAILED. -/
def statusAlerts (workflowState : Option WorkflowState) : List Alert :=
  (if currentStatus workflowState = "COMPLETED" then
    [{ severity := "success", text := "Workflow completed successfully!" }] else []) ++
  (if currentStatus workflowState = "FAILED" then
    [{ severity := "error", text := "Workflow failed: " ++ errorMessage workflowState }]
   else [])

/-! ## API helper (`api.js`) -/

/-- JavaScript truthiness of a JSON value (`null` also stands for undefined). -/
def Json.truthy : Json → Bool
  | Json.null => false
  | Json.bool b => b
  | Json.num n => decide (n ≠ 0)
  | Json.str s => decide (s ≠ "")
  | Json.arr _ => true
  | Json.obj _ => true

/-- Optional property access `value?.key`: undefined unless the value is an object that has
the key. -/
def Json.prop (key : String) : Json → Option Json
  | Json.obj kvs => kvs.lookup key
  | _ => none

/-- The expression `value || fallback`, where `value` may be undefined. -/
def jsOr (value : Option Json) (fallback : Json) : Json :=
  match value with
  | some v => if v.truthy then v else fallback
  | none => fallback

/-- An HTTP response as axios hands it over. -/
structure HttpResponse where
  status : Nat
  data : Json

/-- The error an axios request rejects with: its own message and, when the server answered,
the response. -/
structure AxiosError where
  message : String
  response : Option HttpResponse

/-- The expression `error.response?.data?.detail`. -/
def AxiosError.detail (error : AxiosError) : Option Json :=
  error.response.bind (fun r => r.data.prop "detail")

/-- How a promise settles. -/
inductive Settled (α : Type) where
  | resolved (value : α)
  | rejected (reason : Json)

/-- `handleRequest` of `api.js`, given how the awaited request settled. The pair is the returned
array; the console output is left out. -/
def handleRequest (request : Except AxiosError HttpResponse) : Settled (Json × Json) :=
  match request with
  | Except.ok response => Settled.resolved (response.data, Json.null)
  | Except.error error =>
    let errorMessage := jsOr error.detail (Json.str error.message)
    Settled.resolved (Json.null, errorMessage)

/-! ## Contract slice (`contractSlice.js`) -/

/-- The field `uploadStatus` of the slice; `error` is null or the payload of a rejection. -/
structure UploadStatus where
  loading : Bool
  error : Json
  success : Bool

/-- The state of the contract slice. -/
structure ContractState where
  filesToUpload : List String
  uploadStatus : UploadStatus
  parsedData : Json

/-- The action a settled `uploadContract` thunk dispatches after `pending`. -/
inductive ThunkResult where
  | fulfilled (payload : Json)
  | rejected (payload : Json)

/-- The actions the slice handles. -/
inductive ContractAction where
  | addFilesToUpload (payload : List String)
  | removeFileFromUpload (payload : String)
  | clearUploadState
  | uploadPending
  | uploadFulfilled (payload : Json)
  | uploadRejected (payload : Json)

/-- Adding one value to a `Set`, held as the list of its values in insertion order. -/
def setAdd (values : List String) (x : String) : List String :=
  if x ∈ values then values else values ++ [x]

/-- The expression `[...new Set(items)]`: the values of `items` in the order of their first
occurrence. -/
def newSet (items : List String) : List String :=
  items.foldl setAdd []

namespace contractSlice

/-- The payload creator of the thunk `uploadContract`, given how `api.post` settled. -/
def uploadContract (request : Except AxiosError HttpResponse) : ThunkResult :=
  match request with
  | Except.ok response => ThunkResult.fulfilled response.data
  | Except.error error =>
    ThunkResult.rejected (jsOr error.detail (Json.str "Contract upload failed"))

/-- The initial state of the slice. -/
def initialState : ContractState where
  filesToUpload := []
  uploadStatus := { loading := false, error := Json.null, success := false }
  parsedData := Json.null

/-- The reducer `addFilesToUpload`. -/
def addFilesToUpload (state : ContractState) (payload : List String) : ContractState :=
  { state with filesToUpload := newSet (state.filesToUpload ++ payload) }

/-- The reducer `removeFileFromUpload`. -/
def removeFileFromUpload (state : ContractState) (payload : String) : ContractState :=
  { state with filesToUpload := state.filesToUpload.filter (fun name => name ≠ payload) }

/-- The reducer `clearUploadState`. -/
def clearUploadState (_state : ContractState) : ContractState where
  filesToUpload := []
  uploadStatus := { loading := false, error := Json.null, success := false }
  parsedData := Json.null

/-- The case `uploadContract.pending`. -/
def pending (state : ContractState) : ContractState :=
  { state with uploadStatus := { loading := true, error := Json.null, success := false } }

/-- The case `uploadContract.fulfilled`. -/
def fulfilled (state : ContractState) (payload : Json) : ContractState :=
  { state with
    uploadStatus := { state.uploadStatus with loading := false, success := true }
    parsedData := payload }

/-- The case `uploadContract.rejected`. -/
def rejected (state : ContractState) (payload : Json) : ContractState :=
  { state with uploadStatus := { state.uploadStatus with loading := false, error := payload } }

/-- The reducer of the slice. -/
def reducer (state : ContractState) : ContractAction → ContractState
  | ContractAction.addFilesToUpload payload => addFilesToUpload state payload
  | ContractAction.removeFileFromUpload payload => removeFileFromUpload state payload
  | ContractAction.clearUploadState => clearUploadState state
  | ContractAction.uploadPending => pending state
  | ContractAction.uploadFulfilled payload => fulfilled state payload
  | ContractAction.uploadRejected payload => rejected state payload

/-- The state reached from the initial state by the actions, in order. -/
def reached (actions : List ContractAction) : ContractState :=
  actions.foldl reducer initialState

/-- The action by which a settled thunk reaches the reducer. -/
def settle : ThunkResult → ContractAction
  | ThunkResult.fulfilled payload => ContractAction.uploadFulfilled payload
  | ThunkResult.rejected payload => ContractAction.uploadRejected payload

/-- One upload from `state`: `pending` is dispatched, the request settles, and the settled
thunk is dispatched. -/
def dispatchUpload (state : ContractState) (request : Except AxiosError HttpResponse) :
    ContractState :=
  reducer (reducer state ContractAction.uploadPending) (settle (uploadContract request))

end contractSlice

/-- A lifecycle action of one dispatched upload, with the id of the upload. -/
inductive UploadEvent where
  | pending (requestId : Nat)
  | fulfilled (requestId : Nat) (payload : Json)
  | rejected (requestId : Nat) (payload : Json)

/-- The action of the event as the reducer sees it. -/
def UploadEvent.action : UploadEvent → ContractAction
  | UploadEvent.pending _ => ContractAction.uploadPending
  | UploadEvent.fulfilled _ payload => ContractAction.uploadFulfilled payload
  | UploadEvent.rejected _ payload => ContractAction.uploadRejected payload

/-- The uploads in flight after the event, given those in flight before it. -/
def UploadEvent.track (inFlight : List Nat) : UploadEvent → List Nat
  | UploadEvent.pending requestId => inFlight ++ [requestId]
  | UploadEvent.fulfilled requestId _ => inFlight.erase requestId
  | UploadEvent.rejected requestId _ => inFlight.erase requestId

/-- The uploads dispatched and not yet fulfilled or rejected after the events. -/
def inFlight (events : List UploadEvent) : List Nat :=
  events.foldl UploadEvent.track []

/-- The state of the slice after the events, from the initial state. -/
def afterEvents (events : List UploadEvent) : ContractState :=
  contractSlice.reached (events.map UploadEvent.action)

/-- The events are an interleaving of upload lifecycles, continuing from the uploads in
flight: an upload becomes pending while it is not in flight, and is fulfilled or rejected
while it is in flight. -/
def Interleaving : List Nat → List UploadEvent → Prop
  | _, [] => True
  | fl, UploadEvent.pending i :: es => i ∉ fl ∧ Interleaving (fl ++ [i]) es
  | fl, UploadEvent.fulfilled i _ :: es => i ∈ fl ∧ Interleaving (fl.erase i) es
  | fl, UploadEvent.rejected i _ :: es => i ∈ fl ∧ Interleaving (fl.erase i) es

/-- At no point of the events is more than one upload in flight. -/
def OneAtATime : List Nat → List UploadEvent → Prop
  | fl, [] => fl.length ≤ 1
  | fl, e :: es => fl.length ≤ 1 ∧ OneAtATime (e.track fl) es

/-! ## The render of the tracker (`ContractStatus.jsx`) -/

/-- The expression `agentProgress[agentName]?.message || 'Waiting to start...'`. -/
def stepCaption (workflowState : Option WorkflowState) (agentName : String) : String :=
  if truthy (((agentProgress workflowState).lookup agentName).bind (fun a => a.message)) then
    (((agentProgress workflowState).lookup agentName).bind (fun a => a.message)).getD
      "Waiting to start..."
  else "Waiting to start..."

/-- One step of the stepper: the stage, its icon, whether it is marked completed, and its
caption. -/
structure StepView where
  agentName : String
  icon : Option Icon
  completed : Bool
  caption : String
deriving DecidableEq, Repr

/-- What `WorkflowProgressTracker` returns: null, the alert `Upload failed:` with the upload
error, or the progress panel with one step per stage and the status alerts. -/
inductive TrackerView where
  | nothing
  | uploadFailed (error : Json)
  | progress (steps : List StepView) (alerts : List Alert)

/-- The render of `WorkflowProgressTracker` from what it selects from the store. Without an
active request id it returns early. -/
def WorkflowProgressTracker (activeRequestId : Option String)
    (workflowState : Option WorkflowState) (uploadStatus : UploadStatus) : TrackerView :=
  if truthy activeRequestId = false then
    if uploadStatus.error.truthy then TrackerView.uploadFailed uploadStatus.error
    else TrackerView.nothing
  else
    TrackerView.progress
      (AGENT_ORDER.map (fun agentName =>
        { agentName := agentName
          icon := getStepIcon workflowState agentName
          completed := isStepCompleted workflowState agentName
          caption := stepCaption workflowState agentName }))
      (statusAlerts workflowState)

/-- The workflow alerts of a view: those of the progress panel, none otherwise. -/
def TrackerView.alerts : TrackerView → List Alert
  | TrackerView.progress _ alerts => alerts
  | _ => []

/-! ## Upload form (`ContractUpload.jsx`) -/

/-- What the component `ContractUpload` works on between two renders: its own `localFiles`
and the contract slice of the store, whose `filesToUpload` it selects. -/
structure UploadForm where
  localFiles : List FileInfo
  store : ContractState

/-- What the user does to the upload form. -/
inductive UploadGesture where
  | drop (acceptedFiles : List FileInfo)
  | remove (fileName : String)

namespace ContractUpload

/-- The form when the component is first rendered on a fresh store. -/
def init : UploadForm where
  localFiles := []
  store := contractSlice.initialState

/-- `onDrop`. The callback is closed over `localFiles` and `filesToUpload` of the render it
belongs to, so the filter reads the queue as it was before `clearUploadState` is dispatched. -/
def onDrop (c : UploadForm) (acceptedFiles : List FileInfo) : UploadForm :=
  let localFiles := c.localFiles
  let filesToUpload := c.store.filesToUpload
  let cleared := contractSlice.reducer c.store ContractAction.clearUploadState
  let uniqueNewFiles := acceptedFiles.filter (fun file =>
    !(localFiles.any (fun localFile => localFile.name = file.name)) &&
    !(filesToUpload.contains file.name))
  if uniqueNewFiles.length > 0 then
    let updatedLocalFiles := localFiles ++ uniqueNewFiles
    let fileNames := uniqueNewFiles.map (fun file => file.name)
    { localFiles := updatedLocalFiles
      store := contractSlice.reducer cleared (ContractAction.addFilesToUpload fileNames) }
  else
    { localFiles := localFiles, store := cleared }

/-- `handleRemoveFile`. -/
def handleRemoveFile (c : UploadForm) (fileName : String) : UploadForm where
  localFiles := c.localFiles.filter (fun file => file.name ≠ fileName)
  store := contractSlice.reducer c.store (ContractAction.removeFileFromUpload fileName)

/-- `handleUpload`: the files for which `uploadContract` is dispatched, in order. -/
def handleUpload (c : UploadForm) : List FileInfo :=
  c.localFiles.filter (fun localFile => c.store.filesToUpload.contains localFile.name)

/-- One gesture of the user. -/
def step (c : UploadForm) : UploadGesture → UploadForm
  | UploadGesture.drop acceptedFiles => onDrop c acceptedFiles
  | UploadGesture.remove fileName => handleRemoveFile c fileName

/-- The form after the gestures, in order, from the first render. -/
def after (gestures : List UploadGesture) : UploadForm :=
  gestures.foldl step init

end ContractUpload

/-! ## Payroll slice (`payrollSlice.js`) and dashboard (`PayrollDashboard.jsx`) -/

/-- The state of the payroll slice; `null` is `Json.null`. -/
structure PayrollState where
  summary : Json
  status : String
  error : Json
  importStatus : String
  importError : Json

namespace payrollSlice

/-- The payload creator of the thunk `fetchDashboardSummary`, given how `api.get` settled. -/
def fetchDashboardSummary (request : Except AxiosError HttpResponse) : ThunkResult :=
  match request with
  | Except.ok response => ThunkResult.fulfilled response.data
  | Except.error error =>
    ThunkResult.rejected (jsOr error.detail (Json.str "Failed to fetch dashboard summary"))

/-- The initial state of the slice. -/
def initialState : PayrollState where
  summary := Json.null
  status := "idle"
  error := Json.null
  importStatus := "idle"
  importError := Json.null

/-- The case `fetchDashboardSummary.pending`. -/
def fetchDashboardSummary.pending (state : PayrollState) : PayrollState :=
  { state with status := "loading" }

/-- The case `fetchDashboardSummary.fulfilled`. -/
def fetchDashboardSummary.fulfilled (state : PayrollState) (payload : Json) : PayrollState :=
  { state with status := "succeeded", summary := payload }

/-- The case `fetchDashboardSummary.rejected`. -/
def fetchDashboardSummary.rejected (state : PayrollState) (payload : Json) : PayrollState :=
  { state with status := "failed", error := payload }

/-- The case `importEmployees.pending`. -/
def importEmployees.pending (state : PayrollState) : PayrollState :=
  { state with importStatus := "loading", importError := Json.null }

/-- The case `importEmployees.fulfilled`. -/
def importEmployees.fulfilled (state : PayrollState) (_payload : Json) : PayrollState :=
  { state with importStatus := "succeeded" }

/-- The case `importEmployees.rejected`. -/
def importEmployees.rejected (state : PayrollState) (payload : Json) : PayrollState :=
  { state with importStatus := "failed", importError := payload }

/-- One fetch of the dashboard summary from `state`: `pending` is dispatched, the request
settles, and the settled thunk is dispatched. -/
def dispatchFetch (state : PayrollState) (request : Except AxiosError HttpResponse) :
    PayrollState :=
  match fetchDashboardSummary request with
  | ThunkResult.fulfilled payload =>
    fetchDashboardSummary.fulfilled (fetchDashboardSummary.pending state) payload
  | ThunkResult.rejected payload =>
    fetchDashboardSummary.rejected (fetchDashboardSummary.pending state) payload

end payrollSlice

/-- The expression `value ?? fallback`, where `value` may be undefined. -/
def jsNullish (value : Option Json) (fallback : Json) : Json :=
  match value with
  | some Json.null => fallback
  | some v => v
  | none => fallback

/-- What `PayrollDashboard` returns, as far as the fetch of the summary decides it: the
progress indicator, the error alert with the error, or the dashboard with the four KPI values
(before they are formatted into text). -/
inductive DashboardView where
  | loading
  | errorAlert (error : Json)
  | dashboard (total_employees payroll_accuracy compliance_status total_disbursed : Json)

/-- The render of `PayrollDashboard` from the payroll slice and the status of the employee
slice. -/
def PayrollDashboard (payroll : PayrollState) (employeeStatus : String) : DashboardView :=
  if payroll.status = "loading" ∨ employeeStatus = "loading" then DashboardView.loading
  else if payroll.error.truthy then DashboardView.errorAlert payroll.error
  else
    let kpiData := jsNullish (payroll.summary.prop "kpis") (Json.obj [])
    DashboardView.dashboard
      (jsNullish (kpiData.prop "total_employees") (Json.num 0))
      (jsNullish (kpiData.prop "payroll_accuracy") (Json.num 100))
      (jsNullish (kpiData.prop "compliance_status") (Json.num 100))
      (jsNullish (kpiData.prop "total_disbursed") (Json.num 0))

/-! ## Sample inputs -/

/-- A contract file as multer stores it. -/
def sampleFile : UploadedFile where
  fieldname := "contract"
  originalname := "contract.pdf"
  mimetype := "application/pdf"
  size := 2048
  path := "uploads/3f2a"

/-- An image of 50MB sent under the field `contract`. -/
def sampleImage : UploadedFile where
  fieldname := "contract"
  originalname := "photo.png"
  mimetype := "image/png"
  size := 50 * 1024 * 1024
  path := "uploads/77c1"

/-- The record the sample parser prints. -/
def sampleRecord : Json :=
  Json.obj [("employee_id", Json.str "E1")]

/-- The text of `sampleRecord`. -/
def sampleOutput : String :=
  "\x7b\"employee_id\": \"E1\"\x7d"

/-- A stand-in for `JSON.parse` that agrees with it on the texts the samples use: the text of
`sampleRecord` parses to it, and the empty text is refused. -/
def sampleJsonParse (text : String) : Option Json :=
  if text = sampleOutput then some sampleRecord else none

/-- The parser exits normally and prints `sampleRecord`. -/
def envParsed : Env where
  pythonScriptPath := "/srv/backend/agents/contract_reader.py"
  exec := fun _ => some { error := none, stdout := sampleOutput, stderr := "" }
  jsonParse := sampleJsonParse

/-- The parser exits with an error. -/
def envCrashed : Env where
  pythonScriptPath := "/srv/backend/agents/contract_reader.py"
  exec := fun _ => some { error := some "Command failed", stdout := "", stderr := "Traceback" }
  jsonParse := sampleJsonParse

/-- The parser never exits. -/
def envHung : Env where
  pythonScriptPath := "/srv/backend/agents/contract_reader.py"
  exec := fun _ => none
  jsonParse := sampleJsonParse

/-- The part a browser sends for a file input in which no file was chosen. -/
def blankPart : UploadedFile where
  fieldname := "contract"
  originalname := ""
  mimetype := "application/octet-stream"
  size := 0
  path := ""

/-- The file parts of a request that carry a file name. -/
def namedParts (parts : List UploadedFile) : List UploadedFile :=
  parts.filter (fun f => decide (f.originalname ≠ ""))

/-- Contract data without a salary object. -/
def dataWithoutSalary : ContractData where
  employee_id := some "E1"
  employee_name := some "Asha"
  designation := none
  department := none
  join_date := none
  salary_components := none
  statutory_obligations := none
  region := some "IN"
  currency := some "INR"
  uploaded_at := none

/-- Contract data whose basic salary is negative. -/
def dataNegativeSalary : ContractData :=
  { dataWithoutSalary with
    salary_components := some
      { basic_salary := some (-5000), hra := some 100, lta := none, variable_pay := none,
        bonuses := none, other_allowances := none } }

/-- Contract data with two of the six components supplied, both non-negative. -/
def dataPartialSalary : ContractData :=
  { dataWithoutSalary with
    salary_components := some
      { basic_salary := some 5000, hra := some 100, lta := none, variable_pay := none,
        bonuses := none, other_allowances := none } }

/-- A store whose write succeeds. -/
def storeOk : Contract → Except String Unit :=
  fun _ => Except.ok ()

/-- The amounts an input object supplies. -/
def SalaryComponentInput.supplied (i : SalaryComponentInput) : List Int :=
  [i.basic_salary, i.hra, i.lta, i.variable_pay, i.bonuses, i.other_allowances].reduceOption

/-- The six amounts of a salary sub-document. -/
def SalaryComponent.amounts (s : SalaryComponent) : List Int :=
  [s.basic_salary, s.hra, s.lta, s.variable_pay, s.bonuses, s.other_allowances]

/-- The amount of a record is the supplied one when one is supplied and 0 otherwise. -/
def DefaultsToZero (supplied : Option Int) (amount : Int) : Prop :=
  (∀ v, supplied = some v → amount = v) ∧ (supplied = none → amount = 0)

/-- Form values with a negative HRA. -/
def formNegativeHra : EmployeeContractInput where
  employeeId := some "E1"
  basicSalary := some 5000
  hra := some (-1)
  lta := none
  variablePay := none
  pfApplicable := none
  gratuityApplicable := none
  undeclared := []

/-- The condition under which the tracker is to poll: there is an active request id and the
last known workflow status is neither COMPLETED nor FAILED. -/
def ShouldPoll (p : TrackerProps) : Prop :=
  truthy p.activeRequestId = true ∧
  workflowStatus p.workflowState ≠ some "COMPLETED" ∧
  workflowStatus p.workflowState ≠ some "FAILED"

/-- The tracker `m` holds exactly the timer that the state `p` calls for: one interval of
2000 ms for the active request id, known to the cleanup, when `p` is to be polled, and no
interval otherwise. -/
def Tracked (p : TrackerProps) (m : Mounted) : Prop :=
  0 < m.timers.nextId ∧
  ((ShouldPoll p ∧ ∃ id r, p.activeRequestId = some r ∧ m.intervalId = some id ∧ 0 < id ∧
      id < m.timers.nextId ∧ m.timers.active = [⟨id, 2000, r⟩]) ∨
    (¬ ShouldPoll p ∧ m.intervalId = none ∧ m.timers.active = []))

/-- The tracker reports the stage as running: `getStepIcon` shows the running indicator. -/
def reportedRunning (workflowState : Option WorkflowState) (agentName : String) : Prop :=
  getStepIcon workflowState agentName = some Icon.CircularProgress

/-- The tracker reports the stage as completed. -/
def reportedCompleted (workflowState : Option WorkflowState) (agentName : String) : Prop :=
  isStepCompleted workflowState agentName = true

instance (workflowState : Option WorkflowState) (agentName : String) :
    Decidable (reportedRunning workflowState agentName) := by
  unfold reportedRunning
  infer_instance

instance (workflowState : Option WorkflowState) (agentName : String) :
    Decidable (reportedCompleted workflowState agentName) := by
  unfold reportedCompleted
  infer_instance

/-- The reported stage statuses are monotonic over `AGENT_ORDER`: a stage reported as running
or completed has every earlier stage reported as completed. -/
def ReportedMonotonic (workflowState : Option WorkflowState) : Prop :=
  ∀ i j : Fin AGENT_ORDER.length, j < i →
    reportedRunning workflowState (AGENT_ORDER.get i) ∨
      reportedCompleted workflowState (AGENT_ORDER.get i) →
    reportedCompleted workflowState (AGENT_ORDER.get j)

/-- The recorded stage statuses are monotonic over `AGENT_ORDER`: a stage recorded as RUNNING
or COMPLETED has every earlier stage recorded as COMPLETED. -/
def RecordedMonotonic (workflowState : Option WorkflowState) : Prop :=
  ∀ i j : Fin AGENT_ORDER.length, j < i →
    stageStatus workflowState (AGENT_ORDER.get i) = some "RUNNING" ∨
      stageStatus workflowState (AGENT_ORDER.get i) = some "COMPLETED" →
    stageStatus workflowState (AGENT_ORDER.get j) = some "COMPLETED"

instance (workflowState : Option WorkflowState) : Decidable (ReportedMonotonic workflowState) := by
  unfold ReportedMonotonic
  infer_instance

instance (workflowState : Option WorkflowState) : Decidable (RecordedMonotonic workflowState) := by
  unfold RecordedMonotonic
  infer_instance

/-- A running workflow for which no stage status has been recorded yet. -/
def runningWithoutProgress : Option WorkflowState :=
  some { workflow_status := some "RUNNING", agent_progress := none, error_message := none }

/-- A running workflow with a recorded status for each of the five stages. -/
def runningThirdStage : Option WorkflowState :=
  some
    { workflow_status := some "RUNNING"
      agent_progress := some
        [("ContractReaderAgent", { status := some "COMPLETED", message := none }),
         ("SalaryCalculatorAgent", { status := some "COMPLETED", message := none }),
         ("ComplianceMapperAgent", { status := some "RUNNING", message := none }),
         ("AnomalyDetectorAgent", { status := some "PENDING", message := none }),
         ("DocumentGeneratorAgent", { status := some "PENDING", message := none })]
      error_message := none }

/-- A workflow reported as COMPLETED overall whose first stage is recorded as FAILED and whose
other stages have no recorded status. -/
def completedWithFailedStage : Option WorkflowState :=
  some
    { workflow_status := some "COMPLETED"
      agent_progress := some
        [("ContractReaderAgent", { status := some "FAILED", message := some "unreadable" })]
      error_message := none }

/-- The request failed and the server answered 400 with the body of the upload controller. -/
def errorNoFileUploaded : AxiosError where
  message := "Request failed with status code 400"
  response := some { status := 400, data := errorBody "No file uploaded" }

/-- The request failed and the server answered 413 with a body whose only key is `message`. -/
def errorWithMessageField : AxiosError where
  message := "Request failed with status code 413"
  response := some { status := 413, data := Json.obj [("message", Json.str "File too large")] }

/-- The request failed and the server answered 422 with a body that has the key `detail`. -/
def errorWithDetail : AxiosError where
  message := "Request failed with status code 422"
  response := some
    { status := 422, data := Json.obj [("detail", Json.str "Unsupported file type")] }

/-- The request failed and the server answered 422 with a body whose `detail` is the empty
text. -/
def errorWithEmptyDetail : AxiosError where
  message := "Request failed with status code 422"
  response := some { status := 422, data := Json.obj [("detail", Json.str "")] }

/-- The request failed without an answer from the server. -/
def errorNetwork : AxiosError where
  message := "Network Error"
  response := none

/-- A store whose write fails. -/
def storeDown : Contract → Except String Unit :=
  fun _ => Except.error "connection refused"

/-- The flags of `uploadStatus` agree with the uploads in flight, of which there is at most
one: while none is in flight, loading is false and success is not set together with an error;
while one is in flight, loading is true and neither success nor an error is set. -/
def StatusAgrees (fl : List Nat) (state : ContractState) : Prop :=
  (fl = [] ∧ state.uploadStatus.loading = false ∧
    ¬ (state.uploadStatus.success = true ∧ state.uploadStatus.error ≠ Json.null)) ∨
  (∃ i, fl = [i] ∧ state.uploadStatus.loading = true ∧
    state.uploadStatus.error = Json.null ∧ state.uploadStatus.success = false)

/-- Two uploads are dispatched and the first is fulfilled while the second is in flight. -/
def twoUploadsFirstDone : List UploadEvent :=
  [UploadEvent.pending 1, UploadEvent.pending 2, UploadEvent.fulfilled 1 sampleRecord]

/-- Two uploads are dispatched, the first is fulfilled and then the second is rejected. -/
def twoUploadsSecondFailed : List UploadEvent :=
  twoUploadsFirstDone ++ [UploadEvent.rejected 2 (Json.str "Contract upload failed")]

/-- Two uploads, one after the other: the first is rejected, the second is in flight. -/
def uploadsInTurn : List UploadEvent :=
  [UploadEvent.pending 1, UploadEvent.rejected 1 (Json.str "Contract upload failed"),
    UploadEvent.pending 2]

/-- A first contract file the user drops. -/
def fileA : FileInfo where
  name := "a.pdf"
  type := "application/pdf"
  size := 1000

/-- A second contract file the user drops. -/
def fileB : FileInfo where
  name := "b.pdf"
  type := "application/pdf"
  size := 2000

/-- The local files and the queue of the form hold the same names. -/
def InSync (c : UploadForm) : Prop :=
  ∀ x, x ∈ c.localFiles.map (fun file => file.name) ↔ x ∈ c.store.filesToUpload

/-- A dashboard summary as the server sends it. -/
def sampleSummary : Json :=
  Json.obj [("kpis", Json.obj [("total_employees", Json.num 12),
    ("payroll_accuracy", Json.num 98), ("compliance_status", Json.num 95),
    ("total_disbursed", Json.num 250000)])]

/-- The payroll slice after a first fetch of the summary that failed without an answer. -/
def afterFailedFetch : PayrollState :=
  payrollSlice.dispatchFetch payrollSlice.initialState (Except.error errorNetwork)

/-- The payroll slice after the failed fetch was followed by one that succeeded. -/
def afterRetry : PayrollState :=
  payrollSlice.dispatchFetch afterFailedFetch
    (Except.ok { status := 200, data := sampleSummary })

/-! ## Upload gateway -/

theorem errorBody_ne {a b : String} (h : a ≠ b) : errorBody a ≠ errorBody b := by
  intro e
  simp [errorBody] at e
  exact h e

/-- C1: a request without a file is answered with status 400 and the body whose only key is
error with the text No file uploaded; that is the only effect, so `exec` is not called. -/
theorem uploadContract_no_file (env : Env) (req : Request) (h : req.file = none) :
    uploadContract env req =
      [Effect.respond 400 (Json.obj [("error", Json.str "No file uploaded")])] ∧
    responses (uploadContract env req) =
      [(400, Json.obj [("error", Json.str "No file uploaded")])] ∧
    execCalls (uploadContract env req) = [] := by
  cases req with
  | mk file =>
    simp only at h
    subst h
    exact ⟨rfl, rfl, rfl⟩

theorem uploadContract_no_file_witness :
    uploadContract envParsed { file := none } =
      [Effect.respond 400 (Json.obj [("error", Json.str "No file uploaded")])] ∧
    responses (uploadContract envParsed { file := none }) =
      [(400, Json.obj [("error", Json.str "No file uploaded")])] ∧
    execCalls (uploadContract envParsed { file := none }) = [] :=
  uploadContract_no_file envParsed { file := none } rfl

/-- C2: with a file, when the parser command exits with an error or its output is not JSON,
the only response has status 500 and one of the two parser messages; it differs from the answer
to a missing file in status (not 400) and in body (not the message No file uploaded). -/
theorem uploadContract_parse_failure (env : Env) (file : UploadedFile) (r : ExecResult)
    (hexit : env.exec (parserCommand env.pythonScriptPath file.path) = some r)
    (h : r.error ≠ none ∨ env.jsonParse r.stdout = none) :
    (responses (uploadContract env { file := some file }) =
        [(500, errorBody "Failed to parse contract")] ∨
      responses (uploadContract env { file := some file }) =
        [(500, errorBody "Invalid response from parser")]) ∧
    ∀ r ∈ responses (uploadContract env { file := some file }),
      r.1 = 500 ∧ r.1 ≠ 400 ∧ r.2 ≠ errorBody "No file uploaded" ∧
      r ∉ responses (uploadContract env { file := none }) := by
  have key : responses (uploadContract env { file := some file }) =
        [(500, errorBody "Failed to parse contract")] ∨
      responses (uploadContract env { file := some file }) =
        [(500, errorBody "Invalid response from parser")] := by
    simp only [uploadContract, hexit]
    cases herr : r.error with
    | some e => left; simp [responses]
    | none =>
      rcases h with h | h
      · exact absurd herr h
      · right; simp [h, responses]
  refine ⟨key, ?_⟩
  have h1 : errorBody "Failed to parse contract" ≠ errorBody "No file uploaded" :=
    errorBody_ne (by decide)
  have h2 : errorBody "Invalid response from parser" ≠ errorBody "No file uploaded" :=
    errorBody_ne (by decide)
  intro r hr
  rcases key with k | k <;> rw [k] at hr <;> simp at hr <;> subst hr <;>
    simp [uploadContract, responses, h1, h2]

theorem uploadContract_parse_failure_witness :
    (responses (uploadContract envCrashed { file := some sampleFile }) =
        [(500, errorBody "Failed to parse contract")] ∨
      responses (uploadContract envCrashed { file := some sampleFile }) =
        [(500, errorBody "Invalid response from parser")]) ∧
    ∀ r ∈ responses (uploadContract envCrashed { file := some sampleFile }),
      r.1 = 500 ∧ r.1 ≠ 400 ∧ r.2 ≠ errorBody "No file uploaded" ∧
      r ∉ responses (uploadContract envCrashed { file := none }) :=
  uploadContract_parse_failure envCrashed sampleFile
    { error := some "Command failed", stdout := "", stderr := "Traceback" } rfl
    (Or.inl (by simp))

/-- C3, as stated, fails: `exec` is called without a timeout and every response is sent from
its callback, so for this upload, whose parser never exits, the command is started and no
response is sent. -/
theorem uploadContract_no_response_while_parser_runs :
    execCalls (uploadContract envHung { file := some sampleFile }) =
      [parserCommand envHung.pythonScriptPath sampleFile.path] ∧
    responses (uploadContract envHung { file := some sampleFile }) = [] ∧
    (responses (uploadContract envHung { file := some sampleFile })).length ≠ 1 := by
  refine ⟨rfl, rfl, by decide⟩

/-- C3, amended: with a file, once the parser command has exited exactly one response is sent;
it has status 200 exactly when the command finished without error and its standard output
parses as JSON, and then its body is the parsed value; otherwise it has status 500. For as
long as the parser command does not exit, no response is sent. -/
theorem uploadContract_success_iff (env : Env) (file : UploadedFile) (r : ExecResult)
    (hexit : env.exec (parserCommand env.pythonScriptPath file.path) = some r) :
    (responses (uploadContract env { file := some file })).length = 1 ∧
    ((∃ body, responses (uploadContract env { file := some file }) = [(200, body)]) ↔
      (r.error = none ∧ ∃ v, env.jsonParse r.stdout = some v)) ∧
    (∀ v, r.error = none → env.jsonParse r.stdout = some v →
      responses (uploadContract env { file := some file }) = [(200, v)]) ∧
    ((¬ ∃ body, responses (uploadContract env { file := some file }) = [(200, body)]) →
      ∃ body, responses (uploadContract env { file := some file }) = [(500, body)]) ∧
    ∀ other : Env, other.exec (parserCommand other.pythonScriptPath file.path) = none →
      responses (uploadContract other { file := some file }) = [] := by
  refine ⟨?_, ?_, ?_, ?_, ?_⟩
  · simp only [uploadContract, hexit]
    cases herr : r.error with
    | some e => simp [responses]
    | none => cases hv : env.jsonParse r.stdout <;> simp [responses]
  · simp only [uploadContract, hexit]
    cases herr : r.error with
    | some e => simp [responses]
    | none => cases hv : env.jsonParse r.stdout <;> simp [responses]
  · intro v herr hv
    simp [uploadContract, hexit, herr, hv, responses]
  · simp only [uploadContract, hexit]
    cases herr : r.error with
    | some e => simp [responses]
    | none => cases hv : env.jsonParse r.stdout <;> simp [responses]
  · intro other hother
    simp [uploadContract, hother, responses]

theorem uploadContract_success_iff_witness :
    (responses (uploadContract envParsed { file := some sampleFile })).length = 1 ∧
    ((∃ body, responses (uploadContract envParsed { file := some sampleFile })
        = [(200, body)]) ↔
      ((none : Option String) = none ∧ ∃ v, envParsed.jsonParse sampleOutput = some v)) ∧
    (∀ v, (none : Option String) = none → envParsed.jsonParse sampleOutput = some v →
      responses (uploadContract envParsed { file := some sampleFile }) = [(200, v)]) ∧
    ((¬ ∃ body, responses (uploadContract envParsed { file := some sampleFile })
        = [(200, body)]) →
      ∃ body, responses (uploadContract envParsed { file := some sampleFile })
        = [(500, body)]) ∧
    ∀ other : Env, other.exec (parserCommand other.pythonScriptPath sampleFile.path) = none →
      responses (uploadContract other { file := some sampleFile }) = [] :=
  uploadContract_success_iff envParsed sampleFile
    { error := none, stdout := sampleOutput, stderr := "" } rfl

theorem saves_uploadContract (env : Env) (req : Request) : saves (uploadContract env req) = [] := by
  cases req with
  | mk file =>
    cases file with
    | none => rfl
    | some f =>
      simp only [uploadContract]
      cases hx : env.exec (parserCommand env.pythonScriptPath f.path) with
      | none => rfl
      | some r =>
        cases herr : r.error with
        | some e => simp [herr, saves]
        | none => cases hv : env.jsonParse r.stdout <;> simp [herr, hv, saves]

theorem execCalls_uploadContract (env : Env) (f : UploadedFile) :
    execCalls (uploadContract env { file := some f }) =
      [parserCommand env.pythonScriptPath f.path] := by
  simp only [uploadContract]
  cases hx : env.exec (parserCommand env.pythonScriptPath f.path) with
  | none => rfl
  | some r =>
    cases herr : r.error with
    | some e => simp [herr, execCalls]
    | none => cases hv : env.jsonParse r.stdout <;> simp [herr, hv, execCalls]

theorem responses_uploadContract_file (env : Env) (f : UploadedFile) :
    ∀ p ∈ responses (uploadContract env { file := some f }), p.1 ≠ 400 := by
  intro p hp
  simp only [uploadContract] at hp
  cases hx : env.exec (parserCommand env.pythonScriptPath f.path) with
  | none => simp [hx, responses] at hp
  | some r =>
    cases herr : r.error with
    | some e => simp [hx, herr, responses] at hp; simp [hp]
    | none =>
      cases hv : env.jsonParse r.stdout with
      | some v => simp [hx, herr, hv, responses] at hp; simp [hp]
      | none => simp [hx, herr, hv, responses] at hp; simp [hp]

/-- C4, as stated, fails: the parser succeeds on this upload, the record is returned with
status 200, and nothing is written to the store. -/
theorem uploadContract_success_without_save :
    responses (uploadContract envParsed { file := some sampleFile }) = [(200, sampleRecord)] ∧
    saves (uploadContract envParsed { file := some sampleFile }) = [] := by
  refine ⟨?_, saves_uploadContract _ _⟩
  simp [uploadContract, envParsed, sampleJsonParse, responses]

/-- C4, amended: when the parser succeeds the controller runs the parser command and returns
the parsed record with status 200, and these are its only effects; no request makes
`uploadContract` write a record to the store. -/
theorem uploadContract_returns_without_persisting (env : Env) (file : UploadedFile)
    (r : ExecResult) (v : Json)
    (hexit : env.exec (parserCommand env.pythonScriptPath file.path) = some r)
    (herr : r.error = none) (hv : env.jsonParse r.stdout = some v) :
    uploadContract env { file := some file } =
      [Effect.exec (parserCommand env.pythonScriptPath file.path), Effect.respond 200 v] ∧
    ∀ req, saves (uploadContract env req) = [] := by
  refine ⟨?_, saves_uploadContract env⟩
  simp [uploadContract, hexit, herr, hv]

theorem uploadContract_returns_without_persisting_witness :
    uploadContract envParsed { file := some sampleFile } =
      [Effect.exec (parserCommand envParsed.pythonScriptPath sampleFile.path),
        Effect.respond 200 sampleRecord] ∧
    ∀ req, saves (uploadContract envParsed req) = [] :=
  uploadContract_returns_without_persisting envParsed sampleFile
    { error := none, stdout := sampleOutput, stderr := "" } sampleRecord rfl rfl
    (by simp [envParsed, sampleJsonParse])

theorem accept_namedParts (fieldname : String) (parts : List UploadedFile) :
    ∀ (filesLeft : Nat) (file : Option UploadedFile),
      upload.accept fieldname filesLeft file parts =
        upload.accept fieldname filesLeft file (namedParts parts) := by
  induction parts with
  | nil => intro filesLeft file; rfl
  | cons f rest ih =>
    intro filesLeft file
    by_cases hname : f.originalname = ""
    · have hfilter : namedParts (f :: rest) = namedParts rest := by
        simp [namedParts, hname]
      rw [hfilter, ← ih]
      simp [MulterOptions.accept, hname]
    · have hfilter : namedParts (f :: rest) = f :: namedParts rest := by
        simp [namedParts, hname]
      rw [hfilter]
      by_cases hbad : f.fieldname ≠ fieldname ∨ filesLeft = 0
      · simp [MulterOptions.accept, hname, hbad]
      · simp only [MulterOptions.accept, hname, hbad, upload, if_false, Option.map_none',
          Option.getD_none, Bool.true_eq_false, Bool.false_eq_true]
        exact ih _ _

theorem single_of_no_namedParts (parts : List UploadedFile) (h : namedParts parts = []) :
    upload.single "contract" parts = Except.ok none := by
  unfold MulterOptions.single
  rw [accept_namedParts, h]
  rfl

theorem single_of_one_namedPart (parts : List UploadedFile) (f : UploadedFile)
    (h : namedParts parts = [f]) :
    upload.single "contract" parts =
      if f.fieldname = "contract" then Except.ok (some f)
      else Except.error "LIMIT_UNEXPECTED_FILE" := by
  have hname : f.originalname ≠ "" := by
    have : f ∈ namedParts parts := by rw [h]; exact List.mem_singleton.mpr rfl
    simpa [namedParts] using (List.mem_filter.mp this).2
  unfold MulterOptions.single
  rw [accept_namedParts, h]
  by_cases hfield : f.fieldname = "contract"
  · simp [MulterOptions.accept, hname, hfield, upload]
  · simp [MulterOptions.accept, hname, hfield]

theorem single_of_more_namedParts (parts : List UploadedFile) (f g : UploadedFile)
    (rest : List UploadedFile) (h : namedParts parts = f :: g :: rest) :
    upload.single "contract" parts = Except.error "LIMIT_UNEXPECTED_FILE" := by
  have hmem : ∀ x ∈ namedParts parts, x.originalname ≠ "" := by
    intro x hx
    simpa [namedParts] using (List.mem_filter.mp hx).2
  have hf : f.originalname ≠ "" := hmem f (by rw [h]; simp)
  have hg : g.originalname ≠ "" := hmem g (by rw [h]; simp)
  unfold MulterOptions.single
  rw [accept_namedParts, h]
  by_cases hfield : f.fieldname = "contract"
  · simp [MulterOptions.accept, hf, hg, hfield, upload]
  · simp [MulterOptions.accept, hf, hfield]

theorem saves_postUpload (env : Env) (parts : List UploadedFile) :
    saves (postUpload env parts) = [] := by
  unfold postUpload
  cases upload.single "contract" parts with
  | error code => rfl
  | ok file => exact saves_uploadContract env _

theorem postUpload_400_iff (env : Env) (parts : List UploadedFile) :
    (∃ body, (400, body) ∈ responses (postUpload env parts)) ↔ namedParts parts = [] := by
  unfold postUpload
  cases hn : namedParts parts with
  | nil =>
    rw [single_of_no_namedParts parts hn]
    simp [uploadContract, responses]
  | cons f rest =>
    cases rest with
    | nil =>
      rw [single_of_one_namedPart parts f hn]
      by_cases hfield : f.fieldname = "contract"
      · simp only [hfield, if_true]
        constructor
        · rintro ⟨body, hb⟩
          exact absurd rfl (responses_uploadContract_file env f _ hb)
        · intro h; cases h
      · simp [hfield, responses]
    | cons g rest =>
      rw [single_of_more_namedParts parts f g rest hn]
      simp [responses]

/-- C5, as stated, fails: an image of 50MB sent to the upload route is handed to the parser and
answered with status 200. -/
theorem postUpload_image_not_rejected :
    sampleImage.mimetype = "image/png" ∧ 10 * 1024 * 1024 < sampleImage.size ∧
    execCalls (postUpload envParsed [sampleImage]) =
      [parserCommand envParsed.pythonScriptPath sampleImage.path] ∧
    responses (postUpload envParsed [sampleImage]) = [(200, sampleRecord)] := by
  refine ⟨rfl, by decide, ?_, ?_⟩ <;>
    simp [postUpload, MulterOptions.single, MulterOptions.accept, upload, sampleImage,
      uploadContract, envParsed, sampleJsonParse, responses, execCalls]

/-- C5, amended: the upload route answers 400 exactly when no file part of the request carries
a file name; when the only part with a file name is under the field contract, then whatever
its type and size the file reaches the controller, the parser command is run once on it and no
response has status 400; and no request to the route writes to the store. -/
theorem postUpload_any_file (env : Env) (parts : List UploadedFile) (f : UploadedFile)
    (hnamed : namedParts parts = [f]) (hfield : f.fieldname = "contract") :
    postUpload env parts = uploadContract env { file := some f } ∧
    execCalls (postUpload env parts) = [parserCommand env.pythonScriptPath f.path] ∧
    (∀ r ∈ responses (postUpload env parts), r.1 ≠ 400) ∧
    ∀ others : List UploadedFile,
      ((∃ body, (400, body) ∈ responses (postUpload env others)) ↔ namedParts others = []) ∧
      (namedParts others = [] →
        postUpload env others = [Effect.respond 400 (errorBody "No file uploaded")]) ∧
      saves (postUpload env others) = [] := by
  have hroute : postUpload env parts = uploadContract env { file := some f } := by
    unfold postUpload
    rw [single_of_one_namedPart parts f hnamed]
    simp [hfield]
  refine ⟨hroute, ?_, ?_, ?_⟩
  · rw [hroute]
    exact execCalls_uploadContract env f
  · rw [hroute]
    exact responses_uploadContract_file env f
  · intro others
    refine ⟨postUpload_400_iff env others, ?_, saves_postUpload env others⟩
    intro h
    unfold postUpload
    rw [single_of_no_namedParts others h]
    rfl

theorem postUpload_any_file_witness :
    postUpload envParsed [blankPart, sampleImage] =
      uploadContract envParsed { file := some sampleImage } ∧
    execCalls (postUpload envParsed [blankPart, sampleImage]) =
      [parserCommand envParsed.pythonScriptPath sampleImage.path] ∧
    (∀ r ∈ responses (postUpload envParsed [blankPart, sampleImage]), r.1 ≠ 400) ∧
    ∀ others : List UploadedFile,
      ((∃ body, (400, body) ∈ responses (postUpload envParsed others)) ↔
        namedParts others = []) ∧
      (namedParts others = [] →
        postUpload envParsed others = [Effect.respond 400 (errorBody "No file uploaded")]) ∧
      saves (postUpload envParsed others) = [] :=
  postUpload_any_file envParsed [blankPart, sampleImage] sampleImage (by decide) rfl

/-! ## Client-side validation -/

theorem fileErrors_eq_nil (f : FileInfo) :
    fileErrors f = [] ↔ fileTypeTest f = true ∧ fileSizeTest f = true := by
  unfold fileErrors
  cases fileTypeTest f <;> cases fileSizeTest f <;> simp

/-- What `contractUploadSchema` accepts: a non-empty array in which every file has one of the
three types and a size of at most 10 * 1024 * 1024 bytes. -/
theorem contractUploadSchema_accepts_iff (files : List FileInfo) :
    contractUploadSchema files = [] ↔
      files ≠ [] ∧ ∀ f ∈ files,
        f.type ∈ ["application/pdf",
          "application/vnd.openxmlformats-officedocument.wordprocessingml.document",
          "text/plain"] ∧
        f.size ≤ 10 * 1024 * 1024 := by
  unfold contractUploadSchema
  cases files with
  | nil => simp
  | cons a t =>
    simp only [List.length_cons, List.append_eq_nil, List.flatMap_eq_nil_iff, fileErrors_eq_nil]
    simp [fileTypeTest, fileSizeTest]

/-- C6 at the boundary: a PDF of exactly 10 * 1024 * 1024 bytes passes `contractUploadSchema`
(no message), while one byte more is refused with the size message. -/
theorem contractUploadSchema_accepts_exactly_10MB :
    contractUploadSchema
      [{ name := "contract.pdf", type := "application/pdf", size := 10 * 1024 * 1024 }] = [] ∧
    contractUploadSchema
      [{ name := "contract.pdf", type := "application/pdf", size := 10 * 1024 * 1024 + 1 }] =
      ["File size must be less than 10MB"] := by
  constructor <;> decide

/-! ## Contract model and store -/

theorem ContractSchema_salary_defaults (now : Nat) (d : ContractData) (i : SalaryComponentInput)
    (h : d.salary_components = some i) :
    ∃ s, (ContractSchema now d).salary_components = some s ∧
      DefaultsToZero i.basic_salary s.basic_salary ∧
      DefaultsToZero i.hra s.hra ∧
      DefaultsToZero i.lta s.lta ∧
      DefaultsToZero i.variable_pay s.variable_pay ∧
      DefaultsToZero i.bonuses s.bonuses ∧
      DefaultsToZero i.other_allowances s.other_allowances := by
  refine ⟨SalaryComponentSchema i, by simp [ContractSchema, h], ?_⟩
  simp only [SalaryComponentSchema, DefaultsToZero]
  refine ⟨⟨?_, ?_⟩, ⟨?_, ?_⟩, ⟨?_, ?_⟩, ⟨?_, ?_⟩, ⟨?_, ?_⟩, ⟨?_, ?_⟩⟩ <;>
    intros <;> simp_all

/-- C7 at contract data without a salary object: the record built by the model, which
`createEmployeeFromContract` saves and returns, has no salary sub-document, so none of the six
keys. -/
theorem ContractSchema_without_salary_object :
    (ContractSchema 0 dataWithoutSalary).salary_components = none ∧
    ∃ c, (createEmployeeFromContract 0 storeOk dataWithoutSalary).2 = Except.ok c ∧
      saves (createEmployeeFromContract 0 storeOk dataWithoutSalary).1 = [c] ∧
      c.salary_components = none :=
  ⟨rfl, ContractSchema 0 dataWithoutSalary, rfl, rfl, rfl⟩

theorem createEmployeeFromContract_ok (now : Nat) (dbSave : Contract → Except String Unit)
    (d : ContractData) (c : Contract)
    (h : (createEmployeeFromContract now dbSave d).2 = Except.ok c) :
    c = ContractSchema now d ∧ saves (createEmployeeFromContract now dbSave d).1 = [c] := by
  unfold createEmployeeFromContract at h ⊢
  cases hs : dbSave (ContractSchema now d) with
  | ok u =>
    simp only [hs] at h ⊢
    injection h with h
    subst h
    exact ⟨rfl, rfl⟩
  | error m =>
    simp only [hs] at h
    cases h

/-- C8, as stated, fails: contract data with a basic salary of -5000 is saved, and the saved
record carries the negative amount. -/
theorem createEmployeeFromContract_saves_negative :
    ∃ c s, (createEmployeeFromContract 0 storeOk dataNegativeSalary).2 = Except.ok c ∧
      saves (createEmployeeFromContract 0 storeOk dataNegativeSalary).1 = [c] ∧
      c.salary_components = some s ∧ s.basic_salary = -5000 ∧ s.basic_salary < 0 :=
  ⟨ContractSchema 0 dataNegativeSalary, _, rfl, rfl, rfl, rfl, by decide⟩

/-- C8, amended: the model does not check signs. If the record is saved and every amount the
input supplies is non-negative, each of the six amounts of the saved record is non-negative;
and `employeeContractSchema` refuses every input whose basic salary, HRA, LTA or variable pay
is negative. -/
theorem salary_components_nonneg (now : Nat) (dbSave : Contract → Except String Unit)
    (d : ContractData) (c : Contract)
    (hsaved : (createEmployeeFromContract now dbSave d).2 = Except.ok c)
    (hin : ∀ i, d.salary_components = some i → ∀ x ∈ i.supplied, 0 ≤ x) :
    (∀ s, c.salary_components = some s → ∀ x ∈ s.amounts, 0 ≤ x) ∧
    ∀ v : EmployeeContractInput,
      ((∃ n, v.basicSalary = some n ∧ n < 0) ∨ (∃ n, v.hra = some n ∧ n < 0) ∨
        (∃ n, v.lta = some n ∧ n < 0) ∨ (∃ n, v.variablePay = some n ∧ n < 0)) →
      employeeContractSchema v ≠ [] := by
  constructor
  · obtain ⟨hc, -⟩ := createEmployeeFromContract_ok now dbSave d c hsaved
    subst hc
    intro s hs
    cases hd : d.salary_components with
    | none => simp [ContractSchema, hd] at hs
    | some i =>
      have hi := hin i hd
      simp only [ContractSchema, hd, Option.map] at hs
      injection hs with hs
      subst hs
      have key : ∀ o : Option Int, o ∈ [i.basic_salary, i.hra, i.lta, i.variable_pay,
          i.bonuses, i.other_allowances] → 0 ≤ o.getD 0 := by
        intro o ho
        cases o with
        | none => simp
        | some x => exact hi x (List.reduceOption_mem_iff.mpr ho)
      intro x hx
      simp only [SalaryComponent.amounts, SalaryComponentSchema, List.mem_cons,
        List.mem_singleton, List.not_mem_nil, or_false] at hx
      rcases hx with h | h | h | h | h | h <;> rw [h] <;> apply key <;> simp
  · intro v hv
    unfold employeeContractSchema
    rcases hv with ⟨n, hn, hlt⟩ | ⟨n, hn, hlt⟩ | ⟨n, hn, hlt⟩ | ⟨n, hn, hlt⟩
    · have : ¬ 0 < n := by omega
      simp [hn, this]
    · have : ¬ 0 ≤ n := by omega
      simp [hn, minZero, this]
    · have : ¬ 0 ≤ n := by omega
      simp [hn, minZero, this]
    · have : ¬ 0 ≤ n := by omega
      simp [hn, minZero, this]

theorem salary_components_nonneg_witness :
    (∀ s, (ContractSchema 0 dataPartialSalary).salary_components = some s →
      ∀ x ∈ s.amounts, 0 ≤ x) ∧
    employeeContractSchema formNegativeHra ≠ [] :=
  ⟨(salary_components_nonneg 0 storeOk dataPartialSalary (ContractSchema 0 dataPartialSalary) rfl
      (by
        intro i hi x hx
        simp only [dataPartialSalary, Option.some.injEq] at hi
        subst hi
        simp [SalaryComponentInput.supplied, List.reduceOption] at hx
        omega)).1,
    (salary_components_nonneg 0 storeOk dataPartialSalary (ContractSchema 0 dataPartialSalary) rfl
      (by
        intro i hi x hx
        simp only [dataPartialSalary, Option.some.injEq] at hi
        subst hi
        simp [SalaryComponentInput.supplied, List.reduceOption] at hx
        omega)).2 formNegativeHra (Or.inr (Or.inl ⟨-1, rfl, by decide⟩))⟩

/-! ## Workflow progress tracker -/

theorem effect_of_shouldPoll (p : TrackerProps) (t : Timers) (h : ShouldPoll p) :
    ∃ r, p.activeRequestId = some r ∧
      effect p t = (some t.nextId,
        { nextId := t.nextId + 1, active := t.active ++ [⟨t.nextId, 2000, r⟩] }) := by
  obtain ⟨h1, h2, h3⟩ := h
  cases hr : p.activeRequestId with
  | none => simp [hr, truthy] at h1
  | some r =>
    refine ⟨r, rfl, ?_⟩
    rw [hr] at h1
    simp [effect, hr, h1, h2, h3, setInterval]

theorem effect_of_not_shouldPoll (p : TrackerProps) (t : Timers) (h : ¬ ShouldPoll p) :
    effect p t = (none, t) := by
  unfold effect
  cases hr : p.activeRequestId with
  | none => rfl
  | some r =>
    simp only [ShouldPoll, hr] at h
    simp only []
    rw [if_neg h]

theorem cleanup_of_tracked {p : TrackerProps} {m : Mounted} (h : Tracked p m) :
    cleanup m.intervalId m.timers = { nextId := m.timers.nextId, active := [] } := by
  obtain ⟨-, h | h⟩ := h
  · obtain ⟨-, id, r, -, hid, hpos, -, hact⟩ := h
    have hne : id ≠ 0 := by omega
    simp [cleanup, hid, hne, clearInterval, hact]
  · obtain ⟨-, hid, hact⟩ := h
    cases m with
    | mk i t =>
      cases t with
      | mk n a =>
        simp only at hid hact
        subst hid hact
        rfl

theorem effect_tracked (p : TrackerProps) (n : Nat) (hn : 0 < n) :
    Tracked p
      { intervalId := (effect p { nextId := n, active := [] }).1,
        timers := (effect p { nextId := n, active := [] }).2 } := by
  by_cases h : ShouldPoll p
  · obtain ⟨r, hr, he⟩ := effect_of_shouldPoll p { nextId := n, active := [] } h
    rw [he]
    refine ⟨by simp, Or.inl ⟨h, n, r, hr, rfl, hn, by simp, by simp⟩⟩
  · rw [effect_of_not_shouldPoll p _ h]
    exact ⟨hn, Or.inr ⟨h, rfl, rfl⟩⟩

theorem mount_tracked (p : TrackerProps) : Tracked p (mount p) :=
  effect_tracked p 1 (by decide)

theorem update_tracked {p : TrackerProps} {m : Mounted} (h : Tracked p m) (q : TrackerProps) :
    Tracked q (update m q) := by
  unfold update
  rw [cleanup_of_tracked h]
  exact effect_tracked q m.timers.nextId h.1

theorem update_fresh {p : TrackerProps} {m : Mounted} (h : Tracked p m) (q : TrackerProps) :
    ∀ j ∈ (update m q).timers.active, m.timers.nextId ≤ j.id := by
  unfold update
  rw [cleanup_of_tracked h]
  by_cases hq : ShouldPoll q
  · obtain ⟨r, -, he⟩ := effect_of_shouldPoll q { nextId := m.timers.nextId, active := [] } hq
    rw [he]
    simp
  · rw [effect_of_not_shouldPoll q _ hq]
    simp

theorem foldl_update_tracked (ps : List TrackerProps) :
    ∀ (p : TrackerProps) (m : Mounted), Tracked p m →
      Tracked (ps.getLastD p) (ps.foldl update m) := by
  induction ps with
  | nil => intro p m h; exact h
  | cons q qs ih =>
    intro p m h
    have hlast : (q :: qs).getLastD p = qs.getLastD q := by
      cases qs <;> simp [List.getLastD]
    rw [hlast]
    exact ih q (update m q) (update_tracked h q)

theorem track_tracked (p : TrackerProps) (ps : List TrackerProps) :
    Tracked (ps.getLastD p) (track p ps) :=
  foldl_update_tracked ps p (mount p) (mount_tracked p)

/-- C9: after the tracker is mounted with state `p` and has gone through the changes `ps`, an
interval is running if and only if the latest state has an active request id and a workflow
status that is neither COMPLETED nor FAILED; a running interval has a period of 2000 ms, polls
the active request id and is the one the cleanup holds; at most one is running, and no
interval of the tracker survives a further change of state. -/
theorem tracker_polls_iff (p : TrackerProps) (ps : List TrackerProps) :
    ((track p ps).timers.active ≠ [] ↔
      (truthy (ps.getLastD p).activeRequestId = true ∧
        workflowStatus (ps.getLastD p).workflowState ≠ some "COMPLETED" ∧
        workflowStatus (ps.getLastD p).workflowState ≠ some "FAILED")) ∧
    (∀ i ∈ (track p ps).timers.active,
      i.delay = 2000 ∧ some i.requestId = (ps.getLastD p).activeRequestId ∧
        (track p ps).intervalId = some i.id) ∧
    (track p ps).timers.active.length ≤ 1 ∧
    ∀ q, ∀ i ∈ (track p ps).timers.active, ∀ j ∈ (track p (ps ++ [q])).timers.active,
      j.id ≠ i.id := by
  have ht := track_tracked p ps
  have hfresh := fun q => update_fresh ht q
  have hstep : ∀ q, track p (ps ++ [q]) = update (track p ps) q := by
    intro q
    simp [track, List.foldl_append]
  obtain ⟨hn, h | h⟩ := ht
  · obtain ⟨hp, id, r, hr, hid, hpos, hlt, hact⟩ := h
    refine ⟨?_, ?_, ?_, ?_⟩
    · rw [hact]
      simpa using hp
    · intro i hi
      rw [hact] at hi
      simp only [List.mem_singleton] at hi
      subst hi
      exact ⟨rfl, hr.symm, hid⟩
    · rw [hact]
      simp
    · intro q i hi j hj
      rw [hact] at hi
      simp only [List.mem_singleton] at hi
      subst hi
      rw [hstep q] at hj
      have := hfresh q j hj
      simp only
      omega
  · obtain ⟨hp, hid, hact⟩ := h
    refine ⟨?_, ?_, ?_, ?_⟩
    · rw [hact]
      simpa [ShouldPoll] using hp
    · rw [hact]
      simp
    · rw [hact]
      simp
    · rw [hact]
      simp

/-- C10, as stated, fails: while the workflow is RUNNING and no stage status is recorded, the
second stage shows the running indicator and the first stage is not reported as completed. -/
theorem getStepIcon_not_monotonic :
    getStepIcon runningWithoutProgress "SalaryCalculatorAgent" = some Icon.CircularProgress ∧
    isStepCompleted runningWithoutProgress "ContractReaderAgent" = false ∧
    ¬ ReportedMonotonic runningWithoutProgress := by
  refine ⟨by decide, by decide, by decide⟩

/-- C10, amended: the tracker reports the stage statuses it is given. Whenever the recorded
statuses are monotonic over `AGENT_ORDER` and either the overall status is not RUNNING or every
stage has a recorded status, the reported statuses are monotonic over `AGENT_ORDER`. -/
theorem reported_monotonic_of_recorded (workflowState : Option WorkflowState)
    (hrec : RecordedMonotonic workflowState)
    (hmiss : currentStatus workflowState ≠ "RUNNING" ∨
      ∀ a ∈ AGENT_ORDER, truthy (stageStatus workflowState a) = true) :
    ReportedMonotonic workflowState := by
  intro i j hji h
  have hcompleted : ∀ a, reportedCompleted workflowState a ↔
      stageStatus workflowState a = some "COMPLETED" := by
    intro a
    simp [reportedCompleted, isStepCompleted]
  rw [hcompleted]
  apply hrec i j hji
  rcases h with h | h
  · left
    unfold reportedRunning getStepIcon at h
    simp only at h
    split at h
    · rename_i hc
      rcases hc with hc | ⟨hc1, hc2⟩
      · exact hc
      · rcases hmiss with hm | hm
        · exact absurd hc1 hm
        · have := hm (AGENT_ORDER.get i) (List.get_mem _ _ _)
          rw [hc2] at this
          cases this
    · cases h
  · right
    exact (hcompleted _).mp h

theorem reported_monotonic_of_recorded_witness : ReportedMonotonic runningThirdStage :=
  reported_monotonic_of_recorded runningThirdStage (by decide)
    (Or.inr (by decide))

theorem currentStatus_eq_iff (workflowState : Option WorkflowState) (status : String)
    (hs : status ≠ "") (hp : status ≠ "PENDING") :
    currentStatus workflowState = status ↔ workflowStatus workflowState = some status := by
  unfold currentStatus
  cases h : workflowStatus workflowState with
  | none =>
    simp only [truthy, Bool.false_eq_true, if_false]
    constructor
    · intro e; exact absurd e.symm hp
    · intro e; cases e
  | some v =>
    by_cases hv : v = ""
    · subst hv
      simp only [truthy, ne_eq, not_true_eq_false, decide_False, Bool.false_eq_true, if_false]
      constructor
      · intro e; exact absurd e.symm hp
      · intro e; injection e with e; exact absurd e.symm hs
    · simp [truthy, hv]

theorem statusAlerts_success_iff (workflowState : Option WorkflowState) :
    (∃ a ∈ statusAlerts workflowState, a.severity = "success") ↔
      currentStatus workflowState = "COMPLETED" := by
  unfold statusAlerts
  by_cases h1 : currentStatus workflowState = "COMPLETED"
  · simp [h1]
  · by_cases h2 : currentStatus workflowState = "FAILED" <;> simp [h1, h2]

theorem statusAlerts_error_iff (workflowState : Option WorkflowState) :
    (∃ a ∈ statusAlerts workflowState, a.severity = "error") ↔
      currentStatus workflowState = "FAILED" := by
  unfold statusAlerts
  by_cases h2 : currentStatus workflowState = "FAILED"
  · have h1 : currentStatus workflowState ≠ "COMPLETED" := by rw [h2]; decide
    simp [h1, h2]
  · by_cases h1 : currentStatus workflowState = "COMPLETED" <;> simp [h1, h2]

theorem tracker_alerts (activeRequestId : Option String)
    (workflowState : Option WorkflowState) (uploadStatus : UploadStatus) :
    (WorkflowProgressTracker activeRequestId workflowState uploadStatus).alerts =
      if truthy activeRequestId = true then statusAlerts workflowState else [] := by
  unfold WorkflowProgressTracker
  cases h : truthy activeRequestId
  · cases he : uploadStatus.error.truthy <;> simp [he, TrackerView.alerts]
  · simp [TrackerView.alerts]

/-- C11, as stated, fails: for this state, with an active request id, the tracker reports
COMPLETED and shows the success alert, although the first stage is recorded as FAILED and no
stage is recorded as COMPLETED. -/
theorem overall_status_not_derived :
    stageStatus completedWithFailedStage "ContractReaderAgent" = some "FAILED" ∧
    (∀ a ∈ AGENT_ORDER, isStepCompleted completedWithFailedStage a = false) ∧
    currentStatus completedWithFailedStage = "COMPLETED" ∧
    (WorkflowProgressTracker (some "req-1") completedWithFailedStage
      contractSlice.initialState.uploadStatus).alerts =
      [{ severity := "success", text := "Workflow completed successfully!" }] := by
  refine ⟨by decide, by decide, by decide, ?_⟩
  rw [tracker_alerts]
  decide

/-- C11, amended: the overall status the tracker reports is the workflow status it received
(PENDING when there is none): it is FAILED exactly when the received status is FAILED and
COMPLETED exactly when the received status is COMPLETED. With an active request id the
success alert is shown exactly in the latter case and the error alert exactly in the former;
without one the tracker returns early and shows neither, only the alert for a failed upload
when the upload status holds an error. The recorded stage statuses play no part in any of
this. -/
theorem overall_status_as_received (activeRequestId : Option String)
    (workflowState : Option WorkflowState) (uploadStatus : UploadStatus) :
    (currentStatus workflowState = "FAILED" ↔ workflowStatus workflowState = some "FAILED") ∧
    (currentStatus workflowState = "COMPLETED" ↔
      workflowStatus workflowState = some "COMPLETED") ∧
    ((∃ a ∈ (WorkflowProgressTracker activeRequestId workflowState uploadStatus).alerts,
        a.severity = "success") ↔
      truthy activeRequestId = true ∧ workflowStatus workflowState = some "COMPLETED") ∧
    ((∃ a ∈ (WorkflowProgressTracker activeRequestId workflowState uploadStatus).alerts,
        a.severity = "error") ↔
      truthy activeRequestId = true ∧ workflowStatus workflowState = some "FAILED") ∧
    (truthy activeRequestId = false →
      WorkflowProgressTracker activeRequestId workflowState uploadStatus =
        if uploadStatus.error.truthy then TrackerView.uploadFailed uploadStatus.error
        else TrackerView.nothing) ∧
    ∀ (w : WorkflowState) (progress : Option (List (String × AgentProgress))),
      currentStatus (some { w with agent_progress := progress }) = currentStatus (some w) ∧
      (WorkflowProgressTracker activeRequestId (some { w with agent_progress := progress })
        uploadStatus).alerts =
        (WorkflowProgressTracker activeRequestId (some w) uploadStatus).alerts := by
  have hF := currentStatus_eq_iff workflowState "FAILED" (by decide) (by decide)
  have hC := currentStatus_eq_iff workflowState "COMPLETED" (by decide) (by decide)
  refine ⟨hF, hC, ?_, ?_, ?_, ?_⟩
  · rw [tracker_alerts, ← hC, ← statusAlerts_success_iff]
    cases h : truthy activeRequestId <;> simp
  · rw [tracker_alerts, ← hF, ← statusAlerts_error_iff]
    cases h : truthy activeRequestId <;> simp
  · intro h
    simp [WorkflowProgressTracker, h]
  · intro w progress
    refine ⟨rfl, ?_⟩
    rw [tracker_alerts, tracker_alerts]
    rfl

/-- C12, as stated, fails: while the workflow is RUNNING, the last stage of `AGENT_ORDER`, which
has no recorded status, shows the running indicator just as the first stage does. -/
theorem getStepIcon_later_stage_running :
    AGENT_ORDER.get? 4 = some "DocumentGeneratorAgent" ∧
    currentStatus runningWithoutProgress = "RUNNING" ∧
    stageStatus runningWithoutProgress "DocumentGeneratorAgent" = none ∧
    getStepIcon runningWithoutProgress "DocumentGeneratorAgent" = some Icon.CircularProgress ∧
    getStepIcon runningWithoutProgress "ContractReaderAgent" = some Icon.CircularProgress := by
  refine ⟨by decide, by decide, by decide, by decide, by decide⟩

/-- C12, amended: `getStepIcon` treats a missing status as RUNNING for every stage. When the
overall status is RUNNING, each stage of `AGENT_ORDER` without a recorded status, the first
and the later ones alike, is shown as running. -/
theorem getStepIcon_missing_status (workflowState : Option WorkflowState) (agentName : String)
    (hrunning : currentStatus workflowState = "RUNNING")
    (hmissing : truthy (stageStatus workflowState agentName) = false) :
    getStepIcon workflowState agentName = some Icon.CircularProgress := by
  unfold getStepIcon
  simp only []
  rw [if_pos (Or.inr ⟨hrunning, hmissing⟩)]

theorem getStepIcon_missing_status_witness :
    getStepIcon runningWithoutProgress "AnomalyDetectorAgent" = some Icon.CircularProgress :=
  getStepIcon_missing_status runningWithoutProgress "AnomalyDetectorAgent" (by decide)
    (by decide)

/-! ## Contract slice -/

theorem foldl_setAdd_spec (items : List String) :
    ∀ values : List String, ∃ added,
      items.foldl setAdd values = values ++ added ∧
      (values.Nodup → (values ++ added).Nodup) ∧
      ∀ x, x ∈ added ↔ x ∈ items ∧ x ∉ values := by
  induction items with
  | nil =>
    intro values
    exact ⟨[], by simp, by simp, by simp⟩
  | cons a rest ih =>
    intro values
    by_cases ha : a ∈ values
    · obtain ⟨added, h1, h2, h3⟩ := ih values
      refine ⟨added, ?_, h2, ?_⟩
      · simp only [List.foldl_cons, setAdd, if_pos ha]
        exact h1
      · intro x
        rw [h3 x]
        constructor
        · rintro ⟨hx, hn⟩
          exact ⟨List.mem_cons_of_mem _ hx, hn⟩
        · rintro ⟨hx, hn⟩
          rcases List.mem_cons.mp hx with rfl | hx
          · exact absurd ha hn
          · exact ⟨hx, hn⟩
    · obtain ⟨added, h1, h2, h3⟩ := ih (values ++ [a])
      refine ⟨a :: added, ?_, ?_, ?_⟩
      · simp only [List.foldl_cons, setAdd, if_neg ha]
        rw [h1]
        simp
      · intro hnd
        have : (values ++ [a]).Nodup := by
          rw [List.nodup_append]
          refine ⟨hnd, List.nodup_singleton a, ?_⟩
          intro x hx hxa
          rw [List.mem_singleton] at hxa
          subst hxa
          exact ha hx
        have := h2 this
        simpa using this
      · intro x
        rw [List.mem_cons, h3 x]
        constructor
        · rintro (rfl | ⟨hx, hn⟩)
          · exact ⟨List.mem_cons_self _ _, ha⟩
          · refine ⟨List.mem_cons_of_mem _ hx, ?_⟩
            intro hv
            exact hn (List.mem_append_left _ hv)
        · rintro ⟨hx, hn⟩
          rcases List.mem_cons.mp hx with rfl | hx
          · exact Or.inl rfl
          · by_cases hxa : x = a
            · exact Or.inl hxa
            · refine Or.inr ⟨hx, ?_⟩
              intro hv
              rcases List.mem_append.mp hv with hv | hv
              · exact hn hv
              · exact hxa (List.mem_singleton.mp hv)

theorem foldl_setAdd_of_subset (items : List String) :
    ∀ values : List String, (∀ x ∈ items, x ∈ values) → items.foldl setAdd values = values := by
  induction items with
  | nil => intro values _; rfl
  | cons a rest ih =>
    intro values h
    have ha : a ∈ values := h a (List.mem_cons_self _ _)
    simp only [List.foldl_cons, setAdd, if_pos ha]
    exact ih values (fun x hx => h x (List.mem_cons_of_mem _ hx))

theorem foldl_setAdd_nodup (items : List String) :
    ∀ values : List String, (values ++ items).Nodup → items.foldl setAdd values = values ++ items := by
  induction items with
  | nil => intro values _; simp
  | cons a rest ih =>
    intro values h
    have ha : a ∉ values := by
      intro hv
      rw [List.nodup_append] at h
      exact h.2.2 hv (List.mem_cons_self _ _)
    simp only [List.foldl_cons, setAdd, if_neg ha]
    have h2 : (values ++ [a] ++ rest).Nodup := by simpa using h
    rw [ih (values ++ [a]) h2]
    simp

theorem newSet_nodup (items : List String) : (newSet items).Nodup := by
  obtain ⟨added, h1, h2, -⟩ := foldl_setAdd_spec items []
  unfold newSet
  rw [h1]
  exact h2 List.nodup_nil

theorem mem_newSet (items : List String) (x : String) : x ∈ newSet items ↔ x ∈ items := by
  obtain ⟨added, h1, -, h3⟩ := foldl_setAdd_spec items []
  unfold newSet
  rw [h1]
  simp [h3 x]

theorem newSet_of_nodup (items : List String) (h : items.Nodup) : newSet items = items := by
  unfold newSet
  have := foldl_setAdd_nodup items [] (by simpa using h)
  simpa using this

theorem newSet_append (queue names : List String) (h : queue.Nodup) :
    ∃ added, newSet (queue ++ names) = queue ++ added ∧ added.Nodup ∧
      ∀ x, x ∈ added ↔ x ∈ names ∧ x ∉ queue := by
  obtain ⟨added, h1, h2, h3⟩ := foldl_setAdd_spec names queue
  refine ⟨added, ?_, ?_, h3⟩
  · unfold newSet
    rw [List.foldl_append]
    have := newSet_of_nodup queue h
    unfold newSet at this
    rw [this, h1]
  · have := h2 h
    rw [List.nodup_append] at this
    exact this.2.1

theorem newSet_append_self (queue names : List String) :
    newSet (newSet (queue ++ names) ++ names) = newSet (queue ++ names) := by
  have hnd := newSet_nodup (queue ++ names)
  have hsub : ∀ x ∈ names, x ∈ newSet (queue ++ names) := by
    intro x hx
    rw [mem_newSet]
    exact List.mem_append_right _ hx
  have h1 : newSet (newSet (queue ++ names) ++ names)
      = names.foldl setAdd ((newSet (queue ++ names)).foldl setAdd []) := by
    unfold newSet
    rw [List.foldl_append]
  have h2 := newSet_of_nodup _ hnd
  rw [h1]
  unfold newSet at h2 ⊢
  rw [h2]
  exact foldl_setAdd_of_subset names _ hsub

theorem reducer_nodup (state : ContractState) (action : ContractAction)
    (h : state.filesToUpload.Nodup) : (contractSlice.reducer state action).filesToUpload.Nodup := by
  cases action with
  | addFilesToUpload payload => exact newSet_nodup _
  | removeFileFromUpload payload => exact h.filter _
  | clearUploadState => exact List.nodup_nil
  | uploadPending => exact h
  | uploadFulfilled payload => exact h
  | uploadRejected payload => exact h

theorem foldl_reducer_nodup (actions : List ContractAction) :
    ∀ state : ContractState, state.filesToUpload.Nodup →
      (actions.foldl contractSlice.reducer state).filesToUpload.Nodup := by
  induction actions with
  | nil => intro state h; exact h
  | cons a rest ih =>
    intro state h
    exact ih _ (reducer_nodup state a h)

theorem reached_nodup (actions : List ContractAction) :
    (contractSlice.reached actions).filesToUpload.Nodup :=
  foldl_reducer_nodup actions contractSlice.initialState List.nodup_nil

/-- C13: in every state reached from the initial state by any sequence of the six actions of
the slice, `filesToUpload` holds no name twice; `addFilesToUpload` keeps the queued names in
their order and appends each new name once (the appended names are exactly the names of the
payload that were not queued, none twice); and adding the same names a second time changes
nothing. -/
theorem filesToUpload_is_set (actions : List ContractAction) (names : List String) :
    (contractSlice.reached actions).filesToUpload.Nodup ∧
    (∃ added,
      (contractSlice.addFilesToUpload (contractSlice.reached actions) names).filesToUpload =
        (contractSlice.reached actions).filesToUpload ++ added ∧
      added.Nodup ∧
      ∀ x, x ∈ added ↔ x ∈ names ∧ x ∉ (contractSlice.reached actions).filesToUpload) ∧
    contractSlice.addFilesToUpload
        (contractSlice.addFilesToUpload (contractSlice.reached actions) names) names =
      contractSlice.addFilesToUpload (contractSlice.reached actions) names := by
  refine ⟨reached_nodup actions, ?_, ?_⟩
  · exact newSet_append _ names (reached_nodup actions)
  · simp only [contractSlice.addFilesToUpload]
    rw [newSet_append_self]

/-- C14: the initial state is empty, `clearUploadState` takes every state to the initial state
(no queued name, loading false, error null, success false, parsed data null), and applying it
twice equals applying it once. -/
theorem clearUploadState_resets (state : ContractState) :
    contractSlice.initialState.filesToUpload = [] ∧
    contractSlice.initialState.uploadStatus.loading = false ∧
    contractSlice.initialState.uploadStatus.error = Json.null ∧
    contractSlice.initialState.uploadStatus.success = false ∧
    contractSlice.initialState.parsedData = Json.null ∧
    contractSlice.clearUploadState state = contractSlice.initialState ∧
    (contractSlice.clearUploadState state).filesToUpload = [] ∧
    (contractSlice.clearUploadState state).uploadStatus.loading = false ∧
    (contractSlice.clearUploadState state).uploadStatus.error = Json.null ∧
    (contractSlice.clearUploadState state).uploadStatus.success = false ∧
    (contractSlice.clearUploadState state).parsedData = Json.null ∧
    contractSlice.clearUploadState (contractSlice.clearUploadState state) =
      contractSlice.clearUploadState state :=
  ⟨rfl, rfl, rfl, rfl, rfl, rfl, rfl, rfl, rfl, rfl, rfl, rfl⟩

/-- C15: `removeFileFromUpload(name)` yields a queue without `name` that holds the other
queued names as often and in the order they were queued, and leaves `uploadStatus` and
`parsedData` as they were; removing a name that is not queued changes nothing; and in every
state reached from the initial state, adding a name that is not queued and then removing it
gives back the queue. -/
theorem removeFileFromUpload_frame (state : ContractState) (name : String)
    (actions : List ContractAction) :
    name ∉ (contractSlice.removeFileFromUpload state name).filesToUpload ∧
    List.Sublist (contractSlice.removeFileFromUpload state name).filesToUpload
      state.filesToUpload ∧
    (∀ x, x ≠ name →
      (contractSlice.removeFileFromUpload state name).filesToUpload.count x =
        state.filesToUpload.count x) ∧
    (contractSlice.removeFileFromUpload state name).uploadStatus = state.uploadStatus ∧
    (contractSlice.removeFileFromUpload state name).parsedData = state.parsedData ∧
    (name ∉ state.filesToUpload → contractSlice.removeFileFromUpload state name = state) ∧
    (name ∉ (contractSlice.reached actions).filesToUpload →
      (contractSlice.removeFileFromUpload
        (contractSlice.addFilesToUpload (contractSlice.reached actions) [name])
        name).filesToUpload = (contractSlice.reached actions).filesToUpload) := by
  have hfilter : ∀ q : List String, name ∉ q → q.filter (fun n => decide (n ≠ name)) = q := by
    intro q hq
    rw [List.filter_eq_self]
    intro a ha
    have : a ≠ name := fun e => hq (e ▸ ha)
    simpa using this
  refine ⟨?_, ?_, ?_, rfl, rfl, ?_, ?_⟩
  · simp [contractSlice.removeFileFromUpload, List.mem_filter]
  · exact List.filter_sublist _
  · intro x hx
    simp only [contractSlice.removeFileFromUpload]
    exact List.count_filter (by simpa using hx)
  · intro hn
    cases state with
    | mk q u d =>
      simp only [contractSlice.removeFileFromUpload]
      rw [hfilter q hn]
  · intro hn
    have hnd : ((contractSlice.reached actions).filesToUpload ++ [name]).Nodup := by
      rw [List.nodup_append]
      refine ⟨reached_nodup actions, List.nodup_singleton _, ?_⟩
      intro x hx hxn
      rw [List.mem_singleton] at hxn
      subst hxn
      exact hn hx
    simp only [contractSlice.removeFileFromUpload, contractSlice.addFilesToUpload]
    rw [newSet_of_nodup _ hnd, List.filter_append, hfilter _ hn]
    simp

/-- C16, as stated, fails: after an upload that succeeded, a second upload that is rejected
leaves the parsed data of the first in the state. -/
theorem rejected_keeps_parsedData :
    (contractSlice.reached
      [ContractAction.uploadPending, ContractAction.uploadFulfilled sampleRecord,
        ContractAction.uploadPending,
        ContractAction.uploadRejected (Json.str "Contract upload failed")]).parsedData
      = sampleRecord ∧
    sampleRecord ≠ Json.null := by
  refine ⟨rfl, ?_⟩
  intro h
  cases h

/-- C16, amended: from every state, `uploadContract.pending` followed by
`uploadContract.rejected` yields loading false, success false and error equal to the payload
of the rejection; the queue and `parsedData` are left as they were, so `parsedData` is null
afterwards exactly when it was null before. -/
theorem pending_then_rejected (state : ContractState) (payload : Json) :
    (contractSlice.rejected (contractSlice.pending state) payload).uploadStatus.loading
      = false ∧
    (contractSlice.rejected (contractSlice.pending state) payload).uploadStatus.success
      = false ∧
    (contractSlice.rejected (contractSlice.pending state) payload).uploadStatus.error
      = payload ∧
    (contractSlice.rejected (contractSlice.pending state) payload).parsedData
      = state.parsedData ∧
    (contractSlice.rejected (contractSlice.pending state) payload).filesToUpload
      = state.filesToUpload :=
  ⟨rfl, rfl, rfl, rfl, rfl⟩

/-- C17, as stated, fails: when the error response carries its text under the key `error` (the
body of the upload controller) or under the key `message`, the stored error is the fixed text
and not the text of the response. -/
theorem stored_error_ignores_message_field :
    (contractSlice.dispatchUpload contractSlice.initialState
      (Except.error errorNoFileUploaded)).uploadStatus.error
      = Json.str "Contract upload failed" ∧
    (contractSlice.dispatchUpload contractSlice.initialState
      (Except.error errorWithMessageField)).uploadStatus.error
      = Json.str "Contract upload failed" ∧
    Json.str "Contract upload failed" ≠ Json.str "No file uploaded" ∧
    Json.str "Contract upload failed" ≠ Json.str "File too large" := by
  refine ⟨rfl, rfl, ?_, ?_⟩ <;> simp

/-- C17, amended: for every failed upload whose error response carries a truthy `detail` field,
the error stored in the upload session is that detail as it is; the fixed text
Contract upload failed is stored exactly when there is no response, no `detail` field in it, or
a falsy one, whatever other fields the response carries. -/
theorem stored_error_is_detail (state : ContractState) (error : AxiosError) (detail : Json)
    (hdetail : error.detail = some detail) (htruthy : detail.truthy = true) :
    (contractSlice.dispatchUpload state (Except.error error)).uploadStatus.error = detail ∧
    ∀ other : AxiosError,
      (other.detail = none ∨ ∃ d, other.detail = some d ∧ d.truthy = false) →
      (contractSlice.dispatchUpload state (Except.error other)).uploadStatus.error =
        Json.str "Contract upload failed" := by
  constructor
  · simp [contractSlice.dispatchUpload, contractSlice.uploadContract, contractSlice.settle,
      contractSlice.reducer, contractSlice.rejected, jsOr, hdetail, htruthy]
  · intro other h
    rcases h with h | ⟨d, h, hf⟩
    · simp [contractSlice.dispatchUpload, contractSlice.uploadContract, contractSlice.settle,
        contractSlice.reducer, contractSlice.rejected, jsOr, h]
    · simp [contractSlice.dispatchUpload, contractSlice.uploadContract, contractSlice.settle,
        contractSlice.reducer, contractSlice.rejected, jsOr, h, hf]

theorem stored_error_is_detail_witness :
    (contractSlice.dispatchUpload contractSlice.initialState
      (Except.error errorWithDetail)).uploadStatus.error = Json.str "Unsupported file type" ∧
    ∀ other : AxiosError,
      (other.detail = none ∨ ∃ d, other.detail = some d ∧ d.truthy = false) →
      (contractSlice.dispatchUpload contractSlice.initialState
        (Except.error other)).uploadStatus.error = Json.str "Contract upload failed" :=
  stored_error_is_detail contractSlice.initialState errorWithDetail
    (Json.str "Unsupported file type") rfl rfl

/-! ## API helper -/

/-- C18, as stated, fails: this error response carries a `detail` field, the empty text, and
the message of the pair is the message of the error itself and not that field. -/
theorem handleRequest_falsy_detail :
    errorWithEmptyDetail.detail = some (Json.str "") ∧
    handleRequest (Except.error errorWithEmptyDetail) =
      Settled.resolved (Json.null, Json.str "Request failed with status code 422") ∧
    Json.str "Request failed with status code 422" ≠ Json.str "" := by
  refine ⟨rfl, rfl, ?_⟩
  simp

/-- C18, amended: `handleRequest` always resolves, to a pair: the data of the response and null
when the request succeeds; null and a message when it fails, the message being the `detail`
field of the error response when that field is present and truthy, and the message of the
error itself when there is no response, no `detail` field in it, or a falsy one such as the
empty text. -/
theorem handleRequest_pair (request : Except AxiosError HttpResponse) :
    (∃ pair, handleRequest request = Settled.resolved pair) ∧
    (∀ response, request = Except.ok response →
      handleRequest request = Settled.resolved (response.data, Json.null)) ∧
    (∀ error detail, request = Except.error error → error.detail = some detail →
      detail.truthy = true → handleRequest request = Settled.resolved (Json.null, detail)) ∧
    (∀ error, request = Except.error error →
      (error.detail = none ∨ ∃ d, error.detail = some d ∧ d.truthy = false) →
      handleRequest request = Settled.resolved (Json.null, Json.str error.message)) := by
  cases request with
  | ok response =>
    refine ⟨⟨_, rfl⟩, ?_, ?_, ?_⟩
    · intro r h; injection h with h; subst h; rfl
    · intro e d h; cases h
    · intro e h; cases h
  | error error =>
    refine ⟨⟨_, rfl⟩, ?_, ?_, ?_⟩
    · intro r h; cases h
    · intro e d h hd ht
      injection h with h
      subst h
      simp [handleRequest, jsOr, hd, ht]
    · intro e h hd
      injection h with h
      subst h
      rcases hd with hd | ⟨d, hd, hf⟩
      · simp [handleRequest, jsOr, hd]
      · simp [handleRequest, jsOr, hd, hf]

/-! ## Store service -/

/-- C19: when the write succeeds `createEmployeeFromContract` returns the record it built and
saved; when the write fails with a message it throws an error whose message is the fixed text
followed by that message, and nothing is saved; a record it returns is the one record it
saved. -/
theorem createEmployeeFromContract_result (now : Nat) (dbSave : Contract → Except String Unit)
    (contractData : ContractData) :
    (dbSave (ContractSchema now contractData) = Except.ok () →
      (createEmployeeFromContract now dbSave contractData).2 =
        Except.ok (ContractSchema now contractData) ∧
      saves (createEmployeeFromContract now dbSave contractData).1 =
        [ContractSchema now contractData]) ∧
    (∀ message, dbSave (ContractSchema now contractData) = Except.error message →
      (createEmployeeFromContract now dbSave contractData).2 =
        Except.error ("❌ Failed to save contract to MongoDB: " ++ message) ∧
      saves (createEmployeeFromContract now dbSave contractData).1 = []) ∧
    (∀ record, (createEmployeeFromContract now dbSave contractData).2 = Except.ok record →
      dbSave record = Except.ok () ∧
      saves (createEmployeeFromContract now dbSave contractData).1 = [record]) := by
  refine ⟨?_, ?_, ?_⟩
  · intro h
    simp [createEmployeeFromContract, h, saves]
  · intro message h
    simp [createEmployeeFromContract, h, saves]
  · intro record h
    unfold createEmployeeFromContract at h ⊢
    cases hs : dbSave (ContractSchema now contractData) with
    | ok u =>
      simp only [hs] at h ⊢
      injection h with h
      subst h
      exact ⟨hs, rfl⟩
    | error m =>
      simp only [hs] at h
      cases h

/-! ## Uploads in flight -/

theorem OneAtATime.length_le {fl : List Nat} {events : List UploadEvent}
    (h : OneAtATime fl events) : fl.length ≤ 1 := by
  cases events with
  | nil => exact h
  | cons e es => exact h.1

theorem statusAgrees_step (events : List UploadEvent) :
    ∀ (fl : List Nat) (state : ContractState), StatusAgrees fl state →
      Interleaving fl events → OneAtATime fl events →
      StatusAgrees (events.foldl UploadEvent.track fl)
        ((events.map UploadEvent.action).foldl contractSlice.reducer state) := by
  induction events with
  | nil => intro fl state h _ _; exact h
  | cons e es ih =>
    intro fl state h hi ho
    have hnext := ho.2
    have hlen := OneAtATime.length_le hnext
    simp only [List.foldl_cons, List.map_cons]
    cases e with
    | pending i =>
      apply ih _ _ _ hi.2 hnext
      have hfl : fl = [] := by
        simp only [UploadEvent.track, List.length_append, List.length_singleton] at hlen
        exact List.length_eq_zero.mp (by omega)
      subst hfl
      exact Or.inr ⟨i, rfl, rfl, rfl, rfl⟩
    | fulfilled i payload =>
      apply ih _ _ _ hi.2 hnext
      rcases h with ⟨hfl, -, -⟩ | ⟨j, hfl, -, herr, -⟩
      · have := hi.1
        rw [hfl] at this
        cases this
      · have hmem := hi.1
        rw [hfl, List.mem_singleton] at hmem
        subst hmem
        refine Or.inl ⟨by simp [UploadEvent.track, hfl], rfl, ?_⟩
        rintro ⟨-, hne⟩
        exact hne herr
    | rejected i payload =>
      apply ih _ _ _ hi.2 hnext
      rcases h with ⟨hfl, -, -⟩ | ⟨j, hfl, -, -, hsucc⟩
      · have := hi.1
        rw [hfl] at this
        cases this
      · have hmem := hi.1
        rw [hfl, List.mem_singleton] at hmem
        subst hmem
        refine Or.inl ⟨by simp [UploadEvent.track, hfl], rfl, ?_⟩
        rintro ⟨hs, -⟩
        have : (contractSlice.reducer state
          (UploadEvent.rejected i payload).action).uploadStatus.success
            = state.uploadStatus.success := rfl
        rw [this, hsucc] at hs
        cases hs

/-- C20, as stated, fails: with two uploads dispatched, once the first is fulfilled loading is
false while the second is still in flight; and once the second is then rejected, success is
true while the error is not null. -/
theorem interleaved_uploads_break_status :
    Interleaving [] twoUploadsSecondFailed ∧
    inFlight twoUploadsFirstDone = [2] ∧
    (afterEvents twoUploadsFirstDone).uploadStatus.loading = false ∧
    inFlight twoUploadsSecondFailed = [] ∧
    (afterEvents twoUploadsSecondFailed).uploadStatus.success = true ∧
    (afterEvents twoUploadsSecondFailed).uploadStatus.error
      = Json.str "Contract upload failed" ∧
    Json.str "Contract upload failed" ≠ Json.null := by
  refine ⟨?_, by decide, rfl, by decide, rfl, rfl, ?_⟩
  · simp [twoUploadsSecondFailed, twoUploadsFirstDone, Interleaving]
  · intro h
    cases h

/-- C20, amended: in every state reached from the initial state by upload actions in which at
most one upload is in flight at any time, success is not true while the error is not null, and
loading is true exactly while an upload is in flight. With several uploads in flight the flags
follow the last action only. -/
theorem one_upload_at_a_time (events : List UploadEvent)
    (hinterleaving : Interleaving [] events) (hone : OneAtATime [] events) :
    ¬ ((afterEvents events).uploadStatus.success = true ∧
      (afterEvents events).uploadStatus.error ≠ Json.null) ∧
    ((afterEvents events).uploadStatus.loading = true ↔ inFlight events ≠ []) := by
  have h := statusAgrees_step events [] contractSlice.initialState
    (Or.inl ⟨rfl, rfl, by rintro ⟨hs, -⟩; cases hs⟩) hinterleaving hone
  have hstate : (events.map UploadEvent.action).foldl contractSlice.reducer
      contractSlice.initialState = afterEvents events := rfl
  have hfl : events.foldl UploadEvent.track [] = inFlight events := rfl
  rw [hstate, hfl] at h
  rcases h with ⟨hfl, hload, hno⟩ | ⟨i, hfl, hload, herr, hsucc⟩
  · refine ⟨hno, ?_⟩
    rw [hload, hfl]
    simp
  · refine ⟨?_, ?_⟩
    · rintro ⟨hs, -⟩
      rw [hsucc] at hs
      cases hs
    · rw [hload, hfl]
      simp

theorem one_upload_at_a_time_witness :
    ¬ ((afterEvents uploadsInTurn).uploadStatus.success = true ∧
      (afterEvents uploadsInTurn).uploadStatus.error ≠ Json.null) ∧
    ((afterEvents uploadsInTurn).uploadStatus.loading = true ↔ inFlight uploadsInTurn ≠ []) :=
  one_upload_at_a_time uploadsInTurn
    (by simp [uploadsInTurn, Interleaving])
    (by simp [uploadsInTurn, OneAtATime, UploadEvent.track])

/-! ## Upload form -/

theorem onDrop_init_inSync (acceptedFiles : List FileInfo) :
    InSync (ContractUpload.onDrop ContractUpload.init acceptedFiles) := by
  intro x
  unfold ContractUpload.onDrop
  simp only [ContractUpload.init, contractSlice.initialState, List.any_nil, Bool.not_false,
    List.contains_nil, Bool.and_self, List.filter_true, List.nil_append]
  by_cases h : acceptedFiles.length > 0
  · rw [if_pos h]
    simp only [contractSlice.reducer, contractSlice.addFilesToUpload,
      contractSlice.clearUploadState, List.nil_append]
    rw [mem_newSet]
  · rw [if_neg h]
    simp [contractSlice.reducer, contractSlice.clearUploadState]

theorem handleRemoveFile_inSync (c : UploadForm) (fileName : String) (h : InSync c) :
    InSync (ContractUpload.handleRemoveFile c fileName) := by
  intro x
  have hx := h x
  simp only [ContractUpload.handleRemoveFile, contractSlice.reducer,
    contractSlice.removeFileFromUpload, List.mem_map, List.mem_filter] at hx ⊢
  constructor
  · rintro ⟨f, ⟨hf, hne⟩, rfl⟩
    exact ⟨hx.mp ⟨f, hf, rfl⟩, hne⟩
  · rintro ⟨hq, hne⟩
    obtain ⟨f, hf, rfl⟩ := hx.mpr hq
    exact ⟨f, ⟨hf, hne⟩, rfl⟩

theorem handleUpload_of_inSync (c : UploadForm) (h : InSync c) :
    ContractUpload.handleUpload c = c.localFiles := by
  unfold ContractUpload.handleUpload
  rw [List.filter_eq_self]
  intro f hf
  have := (h f.name).mp (List.mem_map.mpr ⟨f, hf, rfl⟩)
  simpa using this

/-- C21 at two drops: after `a.pdf` is dropped and then `b.pdf`, the form holds both files
locally but the queue of the store holds only `b.pdf`, the names do not agree, and
`handleUpload` uploads `b.pdf` alone; a further drop of `a.pdf` changes neither the local files
nor brings it into the queue. -/
theorem second_drop_loses_first_file :
    (ContractUpload.after
      [UploadGesture.drop [fileA], UploadGesture.drop [fileB]]).localFiles = [fileA, fileB] ∧
    (ContractUpload.after
      [UploadGesture.drop [fileA], UploadGesture.drop [fileB]]).store.filesToUpload
      = ["b.pdf"] ∧
    ¬ InSync (ContractUpload.after [UploadGesture.drop [fileA], UploadGesture.drop [fileB]]) ∧
    ContractUpload.handleUpload
      (ContractUpload.after [UploadGesture.drop [fileA], UploadGesture.drop [fileB]])
      = [fileB] ∧
    (ContractUpload.after
      [UploadGesture.drop [fileA], UploadGesture.drop [fileB],
        UploadGesture.drop [fileA]]).localFiles = [fileA, fileB] ∧
    (ContractUpload.after
      [UploadGesture.drop [fileA], UploadGesture.drop [fileB],
        UploadGesture.drop [fileA]]).store.filesToUpload = [] := by
  have h1 : (ContractUpload.after
      [UploadGesture.drop [fileA], UploadGesture.drop [fileB]]).localFiles = [fileA, fileB] := by
    decide
  have h2 : (ContractUpload.after
      [UploadGesture.drop [fileA], UploadGesture.drop [fileB]]).store.filesToUpload
      = ["b.pdf"] := by
    decide
  refine ⟨h1, h2, ?_, by decide, by decide, by decide⟩
  intro h
  have := (h "a.pdf").mp (by rw [h1]; decide)
  rw [h2] at this
  revert this
  decide

/-! ## Payroll slice and dashboard -/

theorem fetch_pending_then_fulfilled (state : PayrollState) (payload : Json) :
    (payrollSlice.fetchDashboardSummary.fulfilled
      (payrollSlice.fetchDashboardSummary.pending state) payload).status = "succeeded" ∧
    (payrollSlice.fetchDashboardSummary.fulfilled
      (payrollSlice.fetchDashboardSummary.pending state) payload).summary = payload ∧
    (payrollSlice.fetchDashboardSummary.fulfilled
      (payrollSlice.fetchDashboardSummary.pending state) payload).error = state.error :=
  ⟨rfl, rfl, rfl⟩

theorem import_pending_resets_error (state : PayrollState) :
    (payrollSlice.importEmployees.pending state).importError = Json.null :=
  rfl

/-- C22 after an earlier failure: a fetch of the summary fails without an answer and the next
one succeeds. The state then has status succeeded and the fetched summary, but its error is
still the text of the failed fetch and not null, and `PayrollDashboard` returns the error alert
in place of the KPI figures. -/
theorem retry_keeps_error :
    afterFailedFetch.error = Json.str "Failed to fetch dashboard summary" ∧
    afterRetry =
      payrollSlice.fetchDashboardSummary.fulfilled
        (payrollSlice.fetchDashboardSummary.pending afterFailedFetch) sampleSummary ∧
    afterRetry.status = "succeeded" ∧
    afterRetry.summary = sampleSummary ∧
    afterRetry.error = Json.str "Failed to fetch dashboard summary" ∧
    afterRetry.error ≠ Json.null ∧
    PayrollDashboard afterRetry "succeeded" =
      DashboardView.errorAlert (Json.str "Failed to fetch dashboard summary") ∧
    PayrollDashboard { afterRetry with error := Json.null } "succeeded" =
      DashboardView.dashboard (Json.num 12) (Json.num 98) (Json.num 95) (Json.num 250000) := by
  refine ⟨rfl, rfl, rfl, rfl, rfl, ?_, ?_, ?_⟩
  · intro h
    cases h
  · rfl
  · rfl

end Payroll
